import Mathlib

/-!
zmv: a shallow embedding of the model viewer.

The development follows the headers under `include/zmv`:

* `camera.h`   : `Camera` (spherical-angle orientation, view and projection matrices),
* `texture.h`, `mesh.h`, `model.h` : the GPU-owning data holders and the scene import,
* `renderer.h` : `Renderer`, which composes them and owns the camera uniform buffer.

The type `float` is a parameter `F`.  The definitions translated from the code ask of `F` only
the arithmetic operations, the numerals and a decidable `<`, so they can be read over `Fp rnd`,
a model of IEEE 754 arithmetic with not-a-number, infinities and an arbitrary rounding
function, as well as over an ordered field.  Theorems about comparisons of angles are stated
over `Fp rnd`; theorems that do not depend on rounding or on not-a-number are stated over an
ordered field.  The calls into `<cmath>` are collected in `FloatMath`, so that every
definition stays executable for any choice of `F`.
-/

namespace Zmv

/-! ## glm: vectors, matrices, look-at and perspective -/

/-- The `<cmath>` functions the code calls on `float`, and the constant pi behind
`glm::radians`. -/
structure FloatMath (F : Type) where
  cos : F → F
  sin : F → F
  tan : F → F
  sqrt : F → F
  pi : F

/-- The type `glm::vec2`. -/
structure Vec2 (F : Type) where
  x : F
  y : F
deriving DecidableEq, Repr

/-- The type `glm::vec3`. -/
structure Vec3 (F : Type) where
  x : F
  y : F
  z : F
deriving DecidableEq, Repr

/-- The type `glm::vec4`, used here only as a matrix column. -/
structure Vec4 (F : Type) where
  x : F
  y : F
  z : F
  w : F
deriving DecidableEq, Repr

/-- The type `glm::mat4`, column-major: `c0 .. c3` are `Result[0] .. Result[3]`. -/
structure Mat4 (F : Type) where
  c0 : Vec4 F
  c1 : Vec4 F
  c2 : Vec4 F
  c3 : Vec4 F
deriving DecidableEq, Repr

section Glm

variable {F : Type} [Zero F] [One F] [NatCast F] [IntCast F] [Add F] [Sub F] [Mul F] [Div F]
  [Neg F] [LT F] [DecidableRel ((· < ·) : F → F → Prop)]

/-- Componentwise `a + b` on `glm::vec3`. -/
def Vec3.add (a b : Vec3 F) : Vec3 F := ⟨a.x + b.x, a.y + b.y, a.z + b.z⟩

/-- Componentwise `a - b` on `glm::vec3`. -/
def Vec3.sub (a b : Vec3 F) : Vec3 F := ⟨a.x - b.x, a.y - b.y, a.z - b.z⟩

/-- Scalar multiple `s * v` on `glm::vec3`. -/
def Vec3.smul (s : F) (v : Vec3 F) : Vec3 F := ⟨s * v.x, s * v.y, s * v.z⟩

/-- Componentwise negation on `glm::vec3`. -/
def Vec3.neg (v : Vec3 F) : Vec3 F := ⟨-v.x, -v.y, -v.z⟩

/-- The function `glm::dot` on `vec3`. -/
def Vec3.dot (a b : Vec3 F) : F := a.x * b.x + a.y * b.y + a.z * b.z

/-- The function `glm::cross`. -/
def Vec3.cross (a b : Vec3 F) : Vec3 F :=
  ⟨a.y * b.z - b.y * a.z, a.z * b.x - b.z * a.x, a.x * b.y - b.x * a.y⟩

/-- The function `glm::normalize`: `v * inversesqrt(dot(v, v))`. -/
def Vec3.normalize (M : FloatMath F) (v : Vec3 F) : Vec3 F :=
  let inv := 1 / M.sqrt (Vec3.dot v v)
  ⟨v.x * inv, v.y * inv, v.z * inv⟩

/-- The function `glm::length` on `vec3`. -/
def Vec3.length (M : FloatMath F) (v : Vec3 F) : F := M.sqrt (Vec3.dot v v)

/-- The function `glm::radians`. -/
def radians (M : FloatMath F) (degrees : F) : F := degrees * (M.pi / 180)

/-- The matrix `glm::mat4(1)`. -/
def Mat4.identity : Mat4 F :=
  ⟨⟨1, 0, 0, 0⟩, ⟨0, 1, 0, 0⟩, ⟨0, 0, 1, 0⟩, ⟨0, 0, 0, 1⟩⟩

/-- The function `glm::lookAt` (right-handed, the library default). -/
def lookAt (M : FloatMath F) (eye center up : Vec3 F) : Mat4 F :=
  let f := Vec3.normalize M (Vec3.sub center eye)
  let s := Vec3.normalize M (Vec3.cross f up)
  let u := Vec3.cross s f
  ⟨⟨s.x, u.x, -f.x, 0⟩,
   ⟨s.y, u.y, -f.y, 0⟩,
   ⟨s.z, u.z, -f.z, 0⟩,
   ⟨-Vec3.dot s eye, -Vec3.dot u eye, Vec3.dot f eye, 1⟩⟩

/-- The function `glm::perspective` (right-handed, depth range -1 to 1, the library default). -/
def perspective (M : FloatMath F) (fovy aspect zNear zFar : F) : Mat4 F :=
  let tanHalfFovy := M.tan (fovy / 2)
  ⟨⟨1 / (aspect * tanHalfFovy), 0, 0, 0⟩,
   ⟨0, 1 / tanHalfFovy, 0, 0⟩,
   ⟨0, 0, -(zFar + zNear) / (zFar - zNear), -1⟩,
   ⟨0, 0, -(2 * zFar * zNear) / (zFar - zNear), 0⟩⟩

end Glm

/-! ## camera.h -/

/-- The enum `CameraMovement`. -/
inductive CameraMovement where
  | Left
  | Right
  | Up
  | Down
  | Forward
  | Backward
deriving DecidableEq, Repr

/-- The data members of `class Camera`. -/
structure Camera (F : Type) where
  camera_position : Vec3 F
  camera_forward : Vec3 F
  camera_right : Vec3 F
  camera_up : Vec3 F
  fov : F
  movement_speed : F
  look_around_speed : F
  phi : F
  theta : F
deriving DecidableEq, Repr

section CameraOps

variable {F : Type} [Zero F] [One F] [NatCast F] [IntCast F] [Add F] [Sub F] [Mul F] [Div F]
  [Neg F] [LT F] [DecidableRel ((· < ·) : F → F → Prop)]

/-- The constructor `Camera::Camera()`. -/
def Camera.init : Camera F where
  camera_position := ⟨0, 0, 0⟩
  camera_forward := ⟨0, 0, -1⟩
  camera_right := ⟨1, 0, 0⟩
  camera_up := ⟨0, 1, 0⟩
  fov := 60
  movement_speed := 3 / 2
  look_around_speed := 1
  phi := 270
  theta := 90

/-- The method `Camera::compute_view_matrix`. -/
def Camera.compute_view_matrix (M : FloatMath F) (c : Camera F) : Mat4 F :=
  lookAt M c.camera_position (Vec3.add c.camera_position c.camera_forward) c.camera_up

/-- The method `Camera::compute_projection_matrix`; near and far planes are `0.1f` and
`10000.0f`. -/
def Camera.compute_projection_matrix (M : FloatMath F) (c : Camera F) (width height : Int) :
    Mat4 F :=
  perspective M (radians M c.fov) ((width : F) / (height : F)) (1 / 10) 10000

/-- The method `Camera::reset`. -/
def Camera.reset (c : Camera F) : Camera F :=
  { c with
    camera_position := ⟨0, 0, 0⟩
    camera_forward := ⟨0, 0, -1⟩
    camera_right := ⟨1, 0, 0⟩
    camera_up := ⟨0, 1, 0⟩
    phi := 270
    theta := 90 }

/-- The method `Camera::move`. -/
def Camera.move (c : Camera F) (direction : CameraMovement) (deltaTime : F) : Camera F :=
  let distance := c.movement_speed * deltaTime
  match direction with
  | .Left =>
    { c with camera_position := Vec3.sub c.camera_position (Vec3.smul distance c.camera_right) }
  | .Right =>
    { c with camera_position := Vec3.add c.camera_position (Vec3.smul distance c.camera_right) }
  | .Up =>
    { c with camera_position := Vec3.add c.camera_position (Vec3.smul distance ⟨0, 1, 0⟩) }
  | .Down =>
    { c with camera_position := Vec3.sub c.camera_position (Vec3.smul distance ⟨0, 1, 0⟩) }
  | .Forward =>
    { c with camera_position := Vec3.add c.camera_position (Vec3.smul distance c.camera_forward) }
  | .Backward =>
    { c with camera_position := Vec3.sub c.camera_position (Vec3.smul distance c.camera_forward) }

/-- The method `Camera::look_around`. -/
def Camera.look_around (M : FloatMath F) (c : Camera F) (dPhi dTheta : F) : Camera F :=
  let phi := c.phi + c.look_around_speed * dPhi
  let phi := if phi < 0 then 360 else phi
  let phi := if phi > 360 then 0 else phi
  let theta := c.theta + c.look_around_speed * dTheta
  let theta := if theta < 1 then 1 else theta
  let theta := if theta > 180 then 180 else theta
  let phi_radians := radians M phi
  let theta_radians := radians M theta
  let camera_forward : Vec3 F :=
    ⟨M.cos phi_radians * M.sin theta_radians,
     M.cos theta_radians,
     M.sin phi_radians * M.sin theta_radians⟩
  let camera_right := Vec3.normalize M (Vec3.cross camera_forward ⟨0, 1, 0⟩)
  let camera_up := Vec3.normalize M (Vec3.cross camera_right camera_forward)
  { c with
    phi := phi
    theta := theta
    camera_forward := camera_forward
    camera_right := camera_right
    camera_up := camera_up }

/-- A sequence of `look_around` calls, one per `(dPhi, dTheta)` pair, oldest first. -/
def Camera.look_around_seq (M : FloatMath F) (c : Camera F) (deltas : List (F × F)) : Camera F :=
  deltas.foldl (fun cam d => Camera.look_around M cam d.1 d.2) c

end CameraOps

/-! ## A model of IEEE 754 arithmetic -/

/-- The values of a binary floating-point format: not-a-number, the two infinities, negative
zero, and the finite numbers, `fin 0` being positive zero.  Which rationals are representable
is left to the rounding function of the format. -/
inductive Ieee where
  | nan
  | ninf
  | pinf
  | nzero
  | fin (q : ℚ)
deriving DecidableEq

/-- Whether a value is not-a-number. -/
def Ieee.isNaN : Ieee → Bool
  | Ieee.nan => true
  | _ => false

/-- Whether a value is an infinity. -/
def Ieee.isInf : Ieee → Bool
  | Ieee.ninf => true
  | Ieee.pinf => true
  | _ => false

/-- The number a finite value stands for; 0 for the values that are not finite. -/
def Ieee.toRat : Ieee → ℚ
  | Ieee.fin q => q
  | _ => 0

/-- Whether a value is one of the two zeros. -/
def Ieee.isZero : Ieee → Bool
  | Ieee.nzero => true
  | Ieee.fin q => decide (q = 0)
  | _ => false

/-- The sign bit. -/
def Ieee.negative : Ieee → Bool
  | Ieee.ninf => true
  | Ieee.nzero => true
  | Ieee.fin q => decide (q < 0)
  | _ => false

/-- The zero of the given sign. -/
def Ieee.zero_signed (negative : Bool) : Ieee :=
  if negative then Ieee.nzero else Ieee.fin 0

/-- The infinity of the given sign. -/
def Ieee.inf_signed (negative : Bool) : Ieee :=
  if negative then Ieee.ninf else Ieee.pinf

/-- Negation flips the sign bit. -/
def Ieee.neg : Ieee → Ieee
  | Ieee.nan => Ieee.nan
  | Ieee.ninf => Ieee.pinf
  | Ieee.pinf => Ieee.ninf
  | Ieee.nzero => Ieee.fin 0
  | Ieee.fin q => if q = 0 then Ieee.nzero else Ieee.fin (-q)

/-- Addition: not-a-number propagates, opposite infinities give not-a-number, an infinity
absorbs a finite operand, two negative zeros give negative zero, an exact zero sum is positive
zero, and every other sum is rounded. -/
def Ieee.add (rnd : ℚ → Ieee) (x y : Ieee) : Ieee :=
  if x.isNaN || y.isNaN then Ieee.nan
  else if x.isInf && y.isInf then (if x = y then x else Ieee.nan)
  else if x.isInf then x
  else if y.isInf then y
  else if x = Ieee.nzero && y = Ieee.nzero then Ieee.nzero
  else if x.toRat + y.toRat = 0 then Ieee.fin 0
  else rnd (x.toRat + y.toRat)

/-- Multiplication: not-a-number propagates, infinity times zero is not-a-number, the sign of
an infinite or zero product is the exclusive or of the signs, and every other product is
rounded. -/
def Ieee.mul (rnd : ℚ → Ieee) (x y : Ieee) : Ieee :=
  if x.isNaN || y.isNaN then Ieee.nan
  else if (x.isInf && y.isZero) || (x.isZero && y.isInf) then Ieee.nan
  else if x.isInf || y.isInf then Ieee.inf_signed (xor x.negative y.negative)
  else if x.isZero || y.isZero then Ieee.zero_signed (xor x.negative y.negative)
  else rnd (x.toRat * y.toRat)

/-- Division: not-a-number propagates, infinity by infinity and zero by zero are not-a-number,
the sign of an infinite or zero quotient is the exclusive or of the signs, and every other
quotient is rounded. -/
def Ieee.div (rnd : ℚ → Ieee) (x y : Ieee) : Ieee :=
  if x.isNaN || y.isNaN then Ieee.nan
  else if (x.isInf && y.isInf) || (x.isZero && y.isZero) then Ieee.nan
  else if x.isInf || y.isZero then Ieee.inf_signed (xor x.negative y.negative)
  else if y.isInf || x.isZero then Ieee.zero_signed (xor x.negative y.negative)
  else rnd (x.toRat / y.toRat)

/-- The comparison `x < y`: false when an operand is not-a-number; the two zeros are equal. -/
def Ieee.lt (x y : Ieee) : Bool :=
  if x.isNaN || y.isNaN then false
  else if y = Ieee.ninf then false
  else if x = Ieee.ninf then true
  else if x = Ieee.pinf then false
  else if y = Ieee.pinf then true
  else decide (x.toRat < y.toRat)

/-- The comparison `x <= y`: false when an operand is not-a-number; the two zeros are equal. -/
def Ieee.le (x y : Ieee) : Bool :=
  if x.isNaN || y.isNaN then false
  else if x = Ieee.ninf then true
  else if y = Ieee.ninf then false
  else if y = Ieee.pinf then true
  else if x = Ieee.pinf then false
  else decide (x.toRat ≤ y.toRat)

/-- A `float` of the format whose rounding function is `rnd`.  The numerals of the source are
representable and stand for themselves; a conversion from `int` is rounded. -/
structure Fp (rnd : ℚ → Ieee) where
  val : Ieee
deriving DecidableEq

/-- Whether a `float` is not-a-number. -/
def Fp.isNaN {rnd : ℚ → Ieee} (x : Fp rnd) : Bool := x.val.isNaN

instance (rnd : ℚ → Ieee) : Zero (Fp rnd) := ⟨⟨Ieee.fin 0⟩⟩

instance (rnd : ℚ → Ieee) : One (Fp rnd) := ⟨⟨Ieee.fin 1⟩⟩

instance (rnd : ℚ → Ieee) : NatCast (Fp rnd) := ⟨fun n => ⟨Ieee.fin n⟩⟩

instance (rnd : ℚ → Ieee) : IntCast (Fp rnd) :=
  ⟨fun n => ⟨if n = 0 then Ieee.fin 0 else rnd n⟩⟩

instance (rnd : ℚ → Ieee) : Neg (Fp rnd) := ⟨fun x => ⟨Ieee.neg x.val⟩⟩

instance (rnd : ℚ → Ieee) : Add (Fp rnd) := ⟨fun x y => ⟨Ieee.add rnd x.val y.val⟩⟩

instance (rnd : ℚ → Ieee) : Sub (Fp rnd) := ⟨fun x y => ⟨Ieee.add rnd x.val (Ieee.neg y.val)⟩⟩

instance (rnd : ℚ → Ieee) : Mul (Fp rnd) := ⟨fun x y => ⟨Ieee.mul rnd x.val y.val⟩⟩

instance (rnd : ℚ → Ieee) : Div (Fp rnd) := ⟨fun x y => ⟨Ieee.div rnd x.val y.val⟩⟩

instance (rnd : ℚ → Ieee) : LT (Fp rnd) := ⟨fun x y => Ieee.lt x.val y.val = true⟩

instance (rnd : ℚ → Ieee) : LE (Fp rnd) := ⟨fun x y => Ieee.le x.val y.val = true⟩

instance (rnd : ℚ → Ieee) : DecidableRel ((· < ·) : Fp rnd → Fp rnd → Prop) :=
  fun x y => inferInstanceAs (Decidable (Ieee.lt x.val y.val = true))

instance (rnd : ℚ → Ieee) : DecidableRel ((· ≤ ·) : Fp rnd → Fp rnd → Prop) :=
  fun x y => inferInstanceAs (Decidable (Ieee.le x.val y.val = true))

/-! ## The external collaborators: importer data, file system, graphics API -/

/-- The enum `TextureType`. -/
inductive TextureType where
  | DIFFUSE
  | SPECULAR
deriving DecidableEq, Repr

/-- The enum `RenderMode`. -/
inductive RenderMode where
  | Position
  | Normal
  | TexCoords
  | Diffuse
  | Specular
deriving DecidableEq, Repr

/-- The struct `CameraBlock`. -/
structure CameraBlock (F : Type) where
  view : Mat4 F
  projection : Mat4 F
deriving DecidableEq, Repr

/-- The alternatives of the `std::variant` taken by `Shader::set_uniform`. -/
inductive UniformValue (F : Type) where
  | bool (value : Bool)
  | int (value : Int)
  | uint (value : Nat)
  | float (value : F)
  | vec2 (value : Vec2 F)
  | vec3 (value : Vec3 F)
  | mat4 (value : Mat4 F)
deriving DecidableEq, Repr

/-- The calls into the graphics API and the importer that the development observes, with the
object names they act on.  `glUniform` stands for `glGetUniformLocation` followed by the
`glUniform*` call of the value, `glBindTexture` for `glActiveTexture(GL_TEXTURE0 + unit)`
followed by `glBindTexture`.  Uploads of vertex, index and pixel data are not recorded, except
for `glTexImage2D`, which marks a decoded image. -/
inductive Effect (F : Type) where
  | glGenTextures (id : Nat)
  | glDeleteTextures (id : Nat)
  | glTexImage2D (id : Nat) (filepath : String)
  | glGenVertexArrays (id : Nat)
  | glDeleteVertexArrays (id : Nat)
  | glGenBuffers (id : Nat)
  | glDeleteBuffers (id : Nat)
  | glCreateShader (id : Nat)
  | glDeleteShader (id : Nat)
  | glCreateProgram (id : Nat)
  | glDeleteProgram (id : Nat)
  | glUniformBlockBinding (program : Nat) (block_name : String) (binding_number : Nat)
  | glUniform (program : Nat) (uniform_name : String) (value : UniformValue F)
  | glBindTexture (texture_unit_number : Nat) (texture : Nat)
  | glDrawElements (vertex_array : Nat) (program : Nat) (count : Nat)
  | ReadFile (filepath : String)
deriving DecidableEq, Repr

/-- The state outside the program: the next object name the graphics driver hands out, the
calls made so far (oldest first), and the data store of the uniform buffers (latest upload
first). -/
structure World (F : Type) where
  next_name : Nat
  trace : List (Effect F)
  uniform_data : List (Nat × CameraBlock F)

/-- One more call on the trace. -/
def World.emit {F : Type} (w : World F) (e : Effect F) : World F :=
  { w with trace := w.trace ++ [e] }

/-- A `glGen*` or `glCreate*` call: the driver returns an unused name. -/
def World.gen {F : Type} (w : World F) (call : Nat → Effect F) : Nat × World F :=
  (w.next_name, { w with next_name := w.next_name + 1, trace := w.trace ++ [call w.next_name] })

/-- The call `glBufferData(GL_UNIFORM_BUFFER, sizeof(CameraBlock), &block, ..)` with `buffer`
bound. -/
def World.upload {F : Type} (w : World F) (buffer : Nat) (block : CameraBlock F) : World F :=
  { w with uniform_data := (buffer, block) :: w.uniform_data }

/-- The contents last uploaded to a uniform buffer. -/
def World.uploaded {F : Type} (w : World F) (buffer : Nat) : Option (CameraBlock F) :=
  w.uniform_data.lookup buffer

/-- The struct `aiMaterial` as the code reads it: the keys `Get` may or may not find, and the
texture file names of the diffuse and specular slots. -/
structure AiMaterial (F : Type) where
  color_diffuse : Option (Vec3 F)
  color_specular : Option (Vec3 F)
  color_ambient : Option (Vec3 F)
  shininess : Option F
  textures_diffuse : List String
  textures_specular : List String

/-- The struct `aiMesh` as the code reads it.  The per-vertex arrays are C arrays, read at the
indices below `mNumVertices`; a null `mNormals` or `mTextureCoords[0]` is `none`. -/
structure AiMesh (F : Type) where
  mNumVertices : Nat
  mVertices : Nat → Vec3 F
  mNormals : Option (Nat → Vec3 F)
  mTextureCoords0 : Option (Nat → Vec3 F)
  mFaces : List (List Nat)
  mMaterialIndex : Nat

/-- The struct `aiNode`: indices into the meshes of the scene, and the child nodes. -/
inductive AiNode where
  | mk (mMeshes : List Nat) (mChildren : List AiNode)

/-- The struct `aiScene`; a null entry of `mMaterials` and a null root are `none`. -/
structure AiScene (F : Type) where
  mFlags_incomplete : Bool
  mRootNode : Option AiNode
  mMeshes : List (AiMesh F)
  mMaterials : List (Option (AiMaterial F))

/-- What the libraries answer: the importer (`none` is a null scene), `std::filesystem`,
the image decoder, shader compilation and linking, and the indeterminate value of a
default-initialised `Material`. -/
structure Extern (F : Type) where
  ReadFile : String → Option (AiScene F)
  parent_path : String → String
  path_join : String → String → String
  stbi_load : String → Bool
  compile_status : String → Bool
  link_status : String → String → Bool
  uninitialized : F

/-! ## texture.h, mesh.h, shader.h -/

/-- The data members of `class Texture`. -/
structure Texture where
  filepath : String
  id : Nat
  texture_type : TextureType
deriving DecidableEq, Repr

/-- The struct `Vertex`. -/
structure Vertex (F : Type) where
  position : Vec3 F
  normal : Vec3 F
  tex_coords : Vec2 F
deriving DecidableEq, Repr

/-- The struct `Material`. -/
structure Material (F : Type) where
  kd : Vec3 F
  ks : Vec3 F
  ka : Vec3 F
  shininess : F
deriving DecidableEq, Repr

/-- The data members of `class Mesh`. -/
structure Mesh (F : Type) where
  vertices : List (Vertex F)
  indices : List Nat
  material : Material F
  indices_of_textures : List Nat
  VAO : Nat
  VBO : Nat
  EBO : Nat
deriving DecidableEq, Repr

/-- The data members of `class Shader` that hold object names. -/
structure Shader where
  vertex_shader : Nat
  fragment_shader : Nat
  program : Nat
deriving DecidableEq, Repr

/-- The data members of `class Model`. -/
structure Model (F : Type) where
  meshes : List (Mesh F)
  textures : List Texture
deriving DecidableEq, Repr

section Owners

variable {F : Type} [Zero F] [One F] [NatCast F] [IntCast F] [Add F] [Sub F] [Mul F] [Div F]
  [Neg F] [LT F] [DecidableRel ((· < ·) : F → F → Prop)]

/-- The constructor `Texture(filepath, texture_type)`: the default constructor generates the
name, then `load_image` uploads the pixels when the decoder returns an image. -/
def Texture.create (E : Extern F) (w : World F) (filepath : String)
    (texture_type : TextureType) : Texture × World F :=
  let (id, w) := w.gen Effect.glGenTextures
  let w := if E.stbi_load filepath then w.emit (Effect.glTexImage2D id filepath) else w
  ({ filepath := filepath, id := id, texture_type := texture_type }, w)

/-- The method `Texture::destroy`. -/
def Texture.destroy (t : Texture) (w : World F) : World F :=
  w.emit (Effect.glDeleteTextures t.id)

/-- The constructor of `Mesh`. -/
def Mesh.create (w : World F) (vertices : List (Vertex F)) (indices : List Nat)
    (material : Material F) (indices_of_textures : List Nat) : Mesh F × World F :=
  let (VAO, w) := w.gen Effect.glGenVertexArrays
  let (VBO, w) := w.gen Effect.glGenBuffers
  let (EBO, w) := w.gen Effect.glGenBuffers
  ({ vertices := vertices, indices := indices, material := material,
     indices_of_textures := indices_of_textures, VAO := VAO, VBO := VBO, EBO := EBO }, w)

/-- The method `Mesh::destroy`. -/
def Mesh.destroy (m : Mesh F) (w : World F) : Mesh F × World F :=
  let w := w.emit (Effect.glDeleteBuffers m.VBO)
  let w := w.emit (Effect.glDeleteBuffers m.EBO)
  let w := w.emit (Effect.glDeleteVertexArrays m.VAO)
  ({ m with vertices := [], indices := [], indices_of_textures := [] }, w)

/-- The constructor `Shader(vertex_shader_filepath, fragment_shader_filepath)`:
`compile_shader` then `link_shader`, each followed by `check_compile_errors`, which deletes
the object that failed. -/
def Shader.create (E : Extern F) (w : World F)
    (vertex_shader_filepath fragment_shader_filepath : String) : Shader × World F :=
  let (vertex_shader, w) := w.gen Effect.glCreateShader
  let w := if E.compile_status vertex_shader_filepath then w
           else w.emit (Effect.glDeleteShader vertex_shader)
  let (fragment_shader, w) := w.gen Effect.glCreateShader
  let w := if E.compile_status fragment_shader_filepath then w
           else w.emit (Effect.glDeleteShader fragment_shader)
  let (program, w) := w.gen Effect.glCreateProgram
  let w := if E.link_status vertex_shader_filepath fragment_shader_filepath then w
           else w.emit (Effect.glDeleteProgram program)
  ({ vertex_shader := vertex_shader, fragment_shader := fragment_shader, program := program }, w)

/-- The method `Shader::destroy`. -/
def Shader.destroy (s : Shader) (w : World F) : World F :=
  let w := w.emit (Effect.glDeleteShader s.vertex_shader)
  let w := w.emit (Effect.glDeleteShader s.fragment_shader)
  w.emit (Effect.glDeleteProgram s.program)

/-- The method `Shader::set_uniform`. -/
def Shader.set_uniform (s : Shader) (w : World F) (uniform_name : String)
    (value : UniformValue F) : World F :=
  w.emit (Effect.glUniform s.program uniform_name value)

/-- The method `Shader::set_uniform_texture`. -/
def Shader.set_uniform_texture (s : Shader) (w : World F) (uniform_name : String)
    (texture texture_unit_number : Nat) : World F :=
  let w := w.emit (Effect.glBindTexture texture_unit_number texture)
  w.emit (Effect.glUniform s.program uniform_name (UniformValue.int texture_unit_number))

/-- The method `Shader::set_UBO`. -/
def Shader.set_UBO (s : Shader) (w : World F) (block_name : String) (binding_number : Nat) :
    World F :=
  w.emit (Effect.glUniformBlockBinding s.program block_name binding_number)

/-- The texture loop of `Mesh::draw` from position `i` on, with the running counts; `none` is
the out-of-range read of `textures[indices_of_textures[i]]`. -/
def Mesh.draw_textures (shader : Shader) (textures : List Texture) :
    List Nat → Nat → Nat → Nat → World F → Option (Nat × Nat × World F)
  | [], _, n_diffuse, n_specular, w => some (n_diffuse, n_specular, w)
  | index :: rest, i, n_diffuse, n_specular, w =>
    match textures[index]? with
    | none => none
    | some texture =>
      match texture.texture_type with
      | TextureType.DIFFUSE =>
        let uniform_name := "diffuseTextures[" ++ toString n_diffuse ++ "]"
        Mesh.draw_textures shader textures rest (i + 1) (n_diffuse + 1) n_specular
          (shader.set_uniform_texture w uniform_name texture.id i)
      | TextureType.SPECULAR =>
        let uniform_name := "specularTextures[" ++ toString n_specular ++ "]"
        Mesh.draw_textures shader textures rest (i + 1) n_diffuse (n_specular + 1)
          (shader.set_uniform_texture w uniform_name texture.id i)

/-- The method `Mesh::draw`. -/
def Mesh.draw (m : Mesh F) (shader : Shader) (textures : List Texture) (w : World F) :
    Option (World F) :=
  let w := shader.set_uniform w "kd" (UniformValue.vec3 m.material.kd)
  let w := shader.set_uniform w "ks" (UniformValue.vec3 m.material.ks)
  let w := shader.set_uniform w "ka" (UniformValue.vec3 m.material.ka)
  let w := shader.set_uniform w "shininess" (UniformValue.float m.material.shininess)
  match Mesh.draw_textures shader textures m.indices_of_textures 0 0 0 w with
  | none => none
  | some (n_diffuse, n_specular, w) =>
    let w := shader.set_uniform w "hasDiffuseTextures" (UniformValue.bool (decide (n_diffuse > 0)))
    let w := shader.set_uniform w "hasSpecularTextures"
      (UniformValue.bool (decide (n_specular > 0)))
    some (w.emit (Effect.glDrawElements m.VAO shader.program m.indices.length))

end Owners

/-! ## model.h -/

section ModelOps

variable {F : Type} [Zero F] [One F] [NatCast F] [IntCast F] [Add F] [Sub F] [Mul F] [Div F]
  [Neg F] [LT F] [DecidableRel ((· < ·) : F → F → Prop)]

/-- The default constructor `Model()`. -/
def Model.empty : Model F := { meshes := [], textures := [] }

/-- The conversion `Model::operator bool`. -/
def Model.toBool (m : Model F) : Bool := decide (m.meshes.length > 0)

/-- The scan of `Model::has_texture` from position `i` on. -/
def Model.has_texture_from (filepath : String) : List Texture → Nat → Option Nat
  | [], _ => none
  | texture :: rest, i =>
    if texture.filepath = filepath then some i else Model.has_texture_from filepath rest (i + 1)

/-- The method `Model::has_texture`. -/
def Model.has_texture (textures : List Texture) (filepath : String) : Option Nat :=
  Model.has_texture_from filepath textures 0

/-- The conversion of `std::size_t` to the `unsigned int` element of `indices_of_textures`. -/
def to_unsigned_int (n : Nat) : Nat := n % 2 ^ 32

/-- One iteration of a texture loop of `Model::process_mesh` (the diffuse and the specular
loop differ only in the `TextureType` they pass): the state is the texture list of the model,
the `indices_of_textures` of the mesh under construction, and the world. -/
def Model.process_texture (E : Extern F) (parent_path : String) (texture_type : TextureType)
    (state : List Texture × List Nat × World F) (str : String) :
    List Texture × List Nat × World F :=
  let (textures, indices_of_textures, w) := state
  let texture_path := E.path_join parent_path str
  match Model.has_texture textures texture_path with
  | some index => (textures, indices_of_textures ++ [to_unsigned_int index], w)
  | none =>
    let (texture, w) := Texture.create E w texture_path texture_type
    (textures ++ [texture], indices_of_textures ++ [to_unsigned_int textures.length], w)

/-- The vertex loop of `Model::process_mesh`. -/
def Model.process_vertices (mesh : AiMesh F) : List (Vertex F) :=
  (List.range mesh.mNumVertices).map fun i =>
    { position := mesh.mVertices i
      normal := match mesh.mNormals with
        | some normals => normals i
        | none => ⟨0, 0, 0⟩
      tex_coords := match mesh.mTextureCoords0 with
        | some coords => ⟨(coords i).x, (coords i).y⟩
        | none => ⟨0, 0⟩ }

/-- The colour and shininess part of `Model::process_mesh`: `aiMaterial::Get` writes its
output only when the key exists, so `color` keeps the value of the previous read. -/
def Model.process_colors (E : Extern F) (mat : AiMaterial F) : Material F :=
  let color : Vec3 F := ⟨0, 0, 0⟩
  let color := mat.color_diffuse.getD color
  let kd := color
  let color := mat.color_specular.getD color
  let ks := color
  let color := mat.color_ambient.getD color
  let ka := color
  { kd := kd, ks := ks, ka := ka, shininess := mat.shininess.getD E.uninitialized }

/-- The method `Model::process_mesh`; it may extend the texture list of the model.  `none` is
the out-of-range read of `scene->mMaterials`. -/
def Model.process_mesh (E : Extern F) (scene : AiScene F) (parent_path : String)
    (mesh : AiMesh F) (textures : List Texture) (w : World F) :
    Option (Mesh F × List Texture × World F) :=
  let vertices := Model.process_vertices mesh
  let indices := mesh.mFaces.flatten
  let material : Material F :=
    ⟨⟨E.uninitialized, E.uninitialized, E.uninitialized⟩,
     ⟨E.uninitialized, E.uninitialized, E.uninitialized⟩,
     ⟨E.uninitialized, E.uninitialized, E.uninitialized⟩, E.uninitialized⟩
  match scene.mMaterials[mesh.mMaterialIndex]? with
  | none => none
  | some none =>
    let (m, w) := Mesh.create w vertices indices material []
    some (m, textures, w)
  | some (some mat) =>
    let material := Model.process_colors E mat
    let state := mat.textures_diffuse.foldl
      (Model.process_texture E parent_path TextureType.DIFFUSE) (textures, [], w)
    let (textures, indices_of_textures, w) := mat.textures_specular.foldl
      (Model.process_texture E parent_path TextureType.SPECULAR) state
    let (m, w) := Mesh.create w vertices indices material indices_of_textures
    some (m, textures, w)

/-- The first loop of `Model::process_node`, over the mesh indices of the node; `none` is the
out-of-range read of `scene->mMeshes`. -/
def Model.process_node_meshes (E : Extern F) (scene : AiScene F) (parent_path : String) :
    List Nat → Model F → World F → Option (Model F × World F)
  | [], model, w => some (model, w)
  | index :: rest, model, w =>
    match scene.mMeshes[index]? with
    | none => none
    | some mesh =>
      match Model.process_mesh E scene parent_path mesh model.textures w with
      | none => none
      | some (m, textures, w) =>
        Model.process_node_meshes E scene parent_path rest
          { meshes := model.meshes ++ [m], textures := textures } w

mutual
/-- The method `Model::process_node`. -/
def Model.process_node (E : Extern F) (scene : AiScene F) (parent_path : String) :
    AiNode → Model F → World F → Option (Model F × World F)
  | AiNode.mk mMeshes mChildren, model, w =>
    match Model.process_node_meshes E scene parent_path mMeshes model w with
    | none => none
    | some (model, w) => Model.process_children E scene parent_path mChildren model w
/-- The second loop of `Model::process_node`, over the children. -/
def Model.process_children (E : Extern F) (scene : AiScene F) (parent_path : String) :
    List AiNode → Model F → World F → Option (Model F × World F)
  | [], model, w => some (model, w)
  | child :: rest, model, w =>
    match Model.process_node E scene parent_path child model w with
    | none => none
    | some (model, w) => Model.process_children E scene parent_path rest model w
end

/-- The method `Model::load_model`. -/
def Model.load_model (E : Extern F) (model : Model F) (w : World F) (filepath : String) :
    Option (Model F × World F) :=
  let w := w.emit (Effect.ReadFile filepath)
  match E.ReadFile filepath with
  | none => some (model, w)
  | some scene =>
    if scene.mFlags_incomplete then some (model, w)
    else
      match scene.mRootNode with
      | none => some (model, w)
      | some root => Model.process_node E scene (E.parent_path filepath) root model w

/-- The method `Model::draw`. -/
def Model.draw (model : Model F) (shader : Shader) (w : World F) : Option (World F) :=
  model.meshes.foldlM (fun w mesh => Mesh.draw mesh shader model.textures w) w

/-- The method `Model::destroy`. -/
def Model.destroy (model : Model F) (w : World F) : Model F × World F :=
  let w := model.meshes.foldl (fun w mesh => (Mesh.destroy mesh w).2) w
  let w := model.textures.foldl (fun w texture => Texture.destroy texture w) w
  ({ meshes := [], textures := [] }, w)

end ModelOps

/-! ## renderer.h -/

/-- The data members of `class Renderer`. -/
structure Renderer (F : Type) where
  width : Int
  height : Int
  render_mode : RenderMode
  camera : Camera F
  model : Model F
  position_shader : Shader
  normal_shader : Shader
  texCoords_shader : Shader
  diffuse_shader : Shader
  specular_shader : Shader
  camera_UBO : Nat
  camera_block : CameraBlock F

section RendererOps

variable {F : Type} [Zero F] [One F] [NatCast F] [IntCast F] [Add F] [Sub F] [Mul F] [Div F]
  [Neg F] [LT F] [DecidableRel ((· < ·) : F → F → Prop)]

/-- The method `Renderer::update_camera_UBO`. -/
def Renderer.update_camera_UBO (r : Renderer F) (w : World F) : World F :=
  w.upload r.camera_UBO r.camera_block

/-- The constructor `Renderer(width, height)`. -/
def Renderer.init (M : FloatMath F) (E : Extern F) (w : World F) (width height : Int) :
    Renderer F × World F :=
  let camera : Camera F := Camera.init
  let model : Model F := Model.empty
  let (position_shader, w) := Shader.create E w "shaders/shader.vert" "shaders/position.frag"
  let (normal_shader, w) := Shader.create E w "shaders/shader.vert" "shaders/normal.frag"
  let (texCoords_shader, w) := Shader.create E w "shaders/shader.vert" "shaders/texcoords.frag"
  let (diffuse_shader, w) := Shader.create E w "shaders/shader.vert" "shaders/diffuse.frag"
  let (specular_shader, w) := Shader.create E w "shaders/shader.vert" "shaders/specular.frag"
  let camera_block : CameraBlock F :=
    { view := camera.compute_view_matrix M
      projection := camera.compute_projection_matrix M width height }
  let (camera_UBO, w) := w.gen Effect.glGenBuffers
  let w := w.upload camera_UBO camera_block
  let w := position_shader.set_UBO w "CameraBlock" 0
  let w := normal_shader.set_UBO w "CameraBlock" 0
  let w := texCoords_shader.set_UBO w "CameraBlock" 0
  let w := diffuse_shader.set_UBO w "CameraBlock" 0
  let w := specular_shader.set_UBO w "CameraBlock" 0
  ({ width := width, height := height, render_mode := RenderMode.Normal, camera := camera,
     model := model, position_shader := position_shader, normal_shader := normal_shader,
     texCoords_shader := texCoords_shader, diffuse_shader := diffuse_shader,
     specular_shader := specular_shader, camera_UBO := camera_UBO,
     camera_block := camera_block }, w)

/-- The method `Renderer::render`. -/
def Renderer.render (r : Renderer F) (w : World F) : Option (World F) :=
  match r.render_mode with
  | RenderMode.Position => r.model.draw r.position_shader w
  | RenderMode.Normal => r.model.draw r.normal_shader w
  | RenderMode.TexCoords => r.model.draw r.texCoords_shader w
  | RenderMode.Diffuse => r.model.draw r.diffuse_shader w
  | RenderMode.Specular => r.model.draw r.specular_shader w

/-- The method `Renderer::load_model`. -/
def Renderer.load_model (E : Extern F) (r : Renderer F) (w : World F) (filepath : String) :
    Option (Renderer F × World F) :=
  let (model, w) := if r.model.toBool then r.model.destroy w else (r.model, w)
  match Model.load_model E model w filepath with
  | none => none
  | some (model, w) => some ({ r with model := model }, w)

/-- The method `Renderer::set_resulution`. -/
def Renderer.set_resulution (M : FloatMath F) (r : Renderer F) (w : World F)
    (width height : Int) : Renderer F × World F :=
  let r := { r with width := width, height := height }
  let r := { r with
    camera_block := { r.camera_block with
      projection := r.camera.compute_projection_matrix M width height } }
  (r, r.update_camera_UBO w)

/-- The method `Renderer::get_render_mode`. -/
def Renderer.get_render_mode (r : Renderer F) : RenderMode := r.render_mode

/-- The method `Renderer::set_render_mode`. -/
def Renderer.set_render_mode (r : Renderer F) (render_mode : RenderMode) : Renderer F :=
  { r with render_mode := render_mode }

/-- The method `Renderer::get_camera_fov`. -/
def Renderer.get_camera_fov (r : Renderer F) : F := r.camera.fov

/-- The method `Renderer::set_camera_fov`. -/
def Renderer.set_camera_fov (M : FloatMath F) (r : Renderer F) (w : World F) (fov : F) :
    Renderer F × World F :=
  let r := { r with camera := { r.camera with fov := fov } }
  let r := { r with
    camera_block := { r.camera_block with
      projection := r.camera.compute_projection_matrix M r.width r.height } }
  (r, r.update_camera_UBO w)

/-- The method `Renderer::get_camera_movement_speed`. -/
def Renderer.get_camera_movement_speed (r : Renderer F) : F := r.camera.movement_speed

/-- The method `Renderer::set_camera_movement_speed`. -/
def Renderer.set_camera_movement_speed (r : Renderer F) (movement_speed : F) : Renderer F :=
  { r with camera := { r.camera with movement_speed := movement_speed } }

/-- The method `Renderer::reset_camera`. -/
def Renderer.reset_camera (r : Renderer F) : Renderer F :=
  { r with camera := r.camera.reset }

/-- The method `Renderer::move_camera`. -/
def Renderer.move_camera (M : FloatMath F) (r : Renderer F) (w : World F)
    (direction : CameraMovement) (deltaTime : F) : Renderer F × World F :=
  let r := { r with camera := r.camera.move direction deltaTime }
  let r := { r with
    camera_block := { r.camera_block with view := r.camera.compute_view_matrix M } }
  (r, r.update_camera_UBO w)

/-- The method `Renderer::get_camera_look_around_speed`. -/
def Renderer.get_camera_look_around_speed (r : Renderer F) : F := r.camera.look_around_speed

/-- The method `Renderer::set_camera_look_around_speed`. -/
def Renderer.set_camera_look_around_speed (r : Renderer F) (look_around_speed : F) :
    Renderer F :=
  { r with camera := { r.camera with look_around_speed := look_around_speed } }

/-- The method `Renderer::look_around_camera`. -/
def Renderer.look_around_camera (M : FloatMath F) (r : Renderer F) (w : World F)
    (dPhi dTheta : F) : Renderer F × World F :=
  let r := { r with camera := r.camera.look_around M dPhi dTheta }
  let r := { r with
    camera_block := { r.camera_block with view := r.camera.compute_view_matrix M } }
  (r, r.update_camera_UBO w)

/-- The method `Renderer::destroy`. -/
def Renderer.destroy (r : Renderer F) (w : World F) : Renderer F × World F :=
  let w := w.emit (Effect.glDeleteBuffers r.camera_UBO)
  let (model, w) := r.model.destroy w
  let w := r.position_shader.destroy w
  let w := r.normal_shader.destroy w
  let w := r.diffuse_shader.destroy w
  let w := r.specular_shader.destroy w
  ({ r with model := model }, w)

/-- The public operations of `Renderer` between construction and `destroy`, with their
arguments. -/
inductive RendererOp (F : Type) where
  | render
  | load_model (filepath : String)
  | set_resulution (width height : Int)
  | set_render_mode (render_mode : RenderMode)
  | set_camera_fov (fov : F)
  | set_camera_movement_speed (movement_speed : F)
  | reset_camera
  | move_camera (direction : CameraMovement) (deltaTime : F)
  | set_camera_look_around_speed (look_around_speed : F)
  | look_around_camera (dPhi dTheta : F)

/-- One public operation on a renderer and the world; `none` is undefined behaviour. -/
def Renderer.step (M : FloatMath F) (E : Extern F) (r : Renderer F) (w : World F) :
    RendererOp F → Option (Renderer F × World F)
  | RendererOp.render => (r.render w).map fun w => (r, w)
  | RendererOp.load_model filepath => r.load_model E w filepath
  | RendererOp.set_resulution width height => some (r.set_resulution M w width height)
  | RendererOp.set_render_mode render_mode => some (r.set_render_mode render_mode, w)
  | RendererOp.set_camera_fov fov => some (r.set_camera_fov M w fov)
  | RendererOp.set_camera_movement_speed s => some (r.set_camera_movement_speed s, w)
  | RendererOp.reset_camera => some (r.reset_camera, w)
  | RendererOp.move_camera direction deltaTime => some (r.move_camera M w direction deltaTime)
  | RendererOp.set_camera_look_around_speed s => some (r.set_camera_look_around_speed s, w)
  | RendererOp.look_around_camera dPhi dTheta => some (r.look_around_camera M w dPhi dTheta)

/-- The states a renderer and the world go through: construction in any world, then public
operations. -/
inductive Renderer.Reachable (M : FloatMath F) (E : Extern F) :
    Renderer F → World F → Prop where
  | init (w : World F) (width height : Int) :
    Renderer.Reachable M E (Renderer.init M E w width height).1 (Renderer.init M E w width height).2
  | step {r : Renderer F} {w : World F} (op : RendererOp F) {r1 : Renderer F} {w1 : World F} :
    Renderer.Reachable M E r w → Renderer.step M E r w op = some (r1, w1) →
    Renderer.Reachable M E r1 w1

end RendererOps

/-! ## Specification-side definitions

These follow the wording of the specification, to be compared with the code above. -/

section SpecSide

variable {F : Type} [Zero F] [One F] [NatCast F] [IntCast F] [Add F] [Sub F] [Mul F] [Div F]
  [Neg F] [LT F] [DecidableRel ((· < ·) : F → F → Prop)]

/-- The axis `Camera::move` is specified to translate along: plus or minus `right`, plus or
minus the world up axis `(0, 1, 0)`, plus or minus `forward`. -/
def Camera.move_axis (c : Camera F) : CameraMovement → Vec3 F
  | CameraMovement.Left => Vec3.neg c.camera_right
  | CameraMovement.Right => c.camera_right
  | CameraMovement.Up => ⟨0, 1, 0⟩
  | CameraMovement.Down => Vec3.neg ⟨0, 1, 0⟩
  | CameraMovement.Forward => c.camera_forward
  | CameraMovement.Backward => Vec3.neg c.camera_forward

mutual
/-- The mesh references of a node tree in depth-first pre-order: the node's own references,
then those of each child in order. -/
def AiNode.mesh_refs : AiNode → List Nat
  | AiNode.mk mMeshes mChildren => mMeshes ++ AiNode.mesh_refs_children mChildren
/-- The mesh references of a list of sibling trees, in order. -/
def AiNode.mesh_refs_children : List AiNode → List Nat
  | [] => []
  | child :: rest => AiNode.mesh_refs child ++ AiNode.mesh_refs_children rest
end

/-- A scene the importer may hand over: every mesh reference of the tree and every material
index of a mesh is in range. -/
def AiScene.WellFormed (scene : AiScene F) (root : AiNode) : Prop :=
  (∀ i ∈ root.mesh_refs, i < scene.mMeshes.length) ∧
  (∀ mesh ∈ scene.mMeshes, mesh.mMaterialIndex < scene.mMaterials.length)

instance (scene : AiScene F) (root : AiNode) : Decidable (scene.WellFormed root) :=
  inferInstanceAs (Decidable (_ ∧ _))

/-- The texture names of the material slots of a mesh: the diffuse slots, then the specular
slots; none when the material is null. -/
def AiScene.material_slots (scene : AiScene F) (mesh : AiMesh F) : List String :=
  match scene.mMaterials[mesh.mMaterialIndex]? with
  | some (some mat) => mat.textures_diffuse ++ mat.textures_specular
  | _ => []

/-- The resolved texture paths (parent directory joined with the texture name) of the material
slots of the meshes a list of references reaches, in order of encounter. -/
def AiScene.slot_paths (E : Extern F) (scene : AiScene F) (parent_path : String)
    (refs : List Nat) : List String :=
  refs.flatMap fun i =>
    match scene.mMeshes[i]? with
    | some mesh => (scene.material_slots mesh).map (E.path_join parent_path)
    | none => []

/-- The distinct entries of a list, each at the place of its first occurrence. -/
def first_occurrences : List String → List String
  | [] => []
  | p :: rest => p :: (first_occurrences rest).filter fun q => decide (q ≠ p)

/-- The bookkeeping of one texture slot on file paths alone: a path not yet in the list is
appended, a known one changes nothing. -/
def add_path (paths : List String) (p : String) : List String :=
  if p ∈ paths then paths else paths ++ [p]

/-- The calls that release the GPU objects of a model: per mesh its two buffers and its vertex
array, then per texture its image object. -/
def Model.release_calls (model : Model F) : List (Effect F) :=
  (model.meshes.flatMap fun mesh =>
    [Effect.glDeleteBuffers mesh.VBO, Effect.glDeleteBuffers mesh.EBO,
     Effect.glDeleteVertexArrays mesh.VAO]) ++
  model.textures.map fun texture => Effect.glDeleteTextures texture.id

/-- The camera block is up to date: both matrices are the ones the camera computes now, and
the uniform buffer holds the block. -/
def Renderer.Fresh (M : FloatMath F) (r : Renderer F) (w : World F) : Prop :=
  r.camera_block.view = r.camera.compute_view_matrix M ∧
  r.camera_block.projection = r.camera.compute_projection_matrix M r.width r.height ∧
  w.uploaded r.camera_UBO = some r.camera_block

/-- What processing texture slots with resolved paths `ps` does to the loop state of
`process_mesh`. -/
structure SlotSteps (ps : List String) (s s1 : List Texture × List Nat × World F) : Prop where
  paths : s1.1.map Texture.filepath = ps.foldl add_path (s.1.map Texture.filepath)
  length_le : s.1.length ≤ s1.1.length
  valid : (∀ i ∈ s.2.1, i < s.1.length) → ∀ i ∈ s1.2.1, i < s1.1.length
  store : s1.2.2.uniform_data = s.2.2.uniform_data
  trace : s.2.2.trace <+: s1.2.2.trace

/-- What `process_mesh` does: the mesh it returns, and the texture list and world after. -/
structure MeshStep (E : Extern F) (scene : AiScene F) (pp : String) (mesh : AiMesh F)
    (ts : List Texture) (w : World F) (r : Mesh F × List Texture × World F) : Prop where
  paths : r.2.1.map Texture.filepath
    = ((scene.material_slots mesh).map (E.path_join pp)).foldl add_path (ts.map Texture.filepath)
  length_le : ts.length ≤ r.2.1.length
  valid : ∀ i ∈ r.1.indices_of_textures, i < r.2.1.length
  store : r.2.2.uniform_data = w.uniform_data
  trace : w.trace <+: r.2.2.trace

/-- What processing the mesh references `refs` does to the model and the world. -/
structure LoadStep (E : Extern F) (scene : AiScene F) (pp : String) (refs : List Nat)
    (s s1 : Model F × World F) : Prop where
  paths : s1.1.textures.map Texture.filepath
    = (scene.slot_paths E pp refs).foldl add_path (s.1.textures.map Texture.filepath)
  length_le : s.1.textures.length ≤ s1.1.textures.length
  valid : (∀ mesh ∈ s.1.meshes, ∀ i ∈ mesh.indices_of_textures, i < s.1.textures.length) →
    ∀ mesh ∈ s1.1.meshes, ∀ i ∈ mesh.indices_of_textures, i < s1.1.textures.length
  store : s1.2.uniform_data = s.2.uniform_data
  trace : s.2.trace <+: s1.2.trace
  count : s1.1.meshes.length = s.1.meshes.length + refs.length

/-- The mesh `m` is the conversion of mesh reference `i` of the scene: its vertices and indices
are those `process_mesh` builds from `scene.mMeshes[i]`. -/
def AiScene.converts (scene : AiScene F) (i : Nat) (m : Mesh F) : Prop :=
  ∃ mesh, scene.mMeshes[i]? = some mesh ∧
    m.vertices = Model.process_vertices mesh ∧ m.indices = mesh.mFaces.flatten

/-- The kind of the texture a reference points to, when the reference is in range. -/
def texture_kind (textures : List Texture) (index : Nat) : Option TextureType :=
  (textures[index]?).map Texture.texture_type

/-- The number of references in a list whose texture has the given kind. -/
def count_kind (textures : List Texture) (kind : TextureType) (refs : List Nat) : Nat :=
  refs.countP fun j => texture_kind textures j == some kind

/-- The uniform array slot `k` of a kind: `diffuseTextures[k]` or `specularTextures[k]`. -/
def sampler_name : TextureType → Nat → String
  | TextureType.DIFFUSE, k => "diffuseTextures[" ++ toString k ++ "]"
  | TextureType.SPECULAR, k => "specularTextures[" ++ toString k ++ "]"

/-- The calls specified for the reference at position `i`: its texture is bound to texture
unit `i`, and unit `i` is assigned to the array slot whose number is the count of earlier
references of the same kind. -/
def Mesh.expected_binding (program : Nat) (textures : List Texture) (refs : List Nat)
    (i : Nat) : List (Effect F) :=
  match refs[i]? with
  | none => []
  | some index =>
    match textures[index]? with
    | none => []
    | some texture =>
      [Effect.glBindTexture i texture.id,
       Effect.glUniform program
         (sampler_name texture.texture_type (count_kind textures texture.texture_type (refs.take i)))
         (UniformValue.int i)]

/-- The calls specified for all references, position by position. -/
def Mesh.expected_bindings (program : Nat) (textures : List Texture) (refs : List Nat) :
    List (Effect F) :=
  (List.range refs.length).flatMap (Mesh.expected_binding program textures refs)

/-- The calls of `Shader::destroy`. -/
def Shader.release_calls (s : Shader) : List (Effect F) :=
  [Effect.glDeleteShader s.vertex_shader, Effect.glDeleteShader s.fragment_shader,
   Effect.glDeleteProgram s.program]

end SpecSide

/-! ## A sample scene and renderer -/

/-- A material with two diffuse and two specular slots, one file shared between the kinds. -/
def sample_material : AiMaterial ℚ where
  color_diffuse := some ⟨1, 0, 0⟩
  color_specular := none
  color_ambient := none
  shininess := some 32
  textures_diffuse := ["wood.png", "metal.png"]
  textures_specular := ["wood.png", "gloss.png"]

/-- A triangle with the given material index. -/
def sample_mesh (material : Nat) : AiMesh ℚ where
  mNumVertices := 3
  mVertices := fun i => ⟨i, 0, 0⟩
  mNormals := none
  mTextureCoords0 := none
  mFaces := [[0, 1, 2]]
  mMaterialIndex := material

/-- A root with one mesh and one child that references two meshes. -/
def sample_root : AiNode := AiNode.mk [0] [AiNode.mk [1, 0] []]

/-- A scene of two meshes; the second material is null. -/
def sample_scene : AiScene ℚ where
  mFlags_incomplete := false
  mRootNode := some sample_root
  mMeshes := [sample_mesh 0, sample_mesh 1]
  mMaterials := [some sample_material, none]

/-- Libraries that import `sample_scene` from `model/spot.obj` and nothing else. -/
def sample_libs : Extern ℚ where
  ReadFile := fun filepath => if filepath = "model/spot.obj" then some sample_scene else none
  parent_path := fun _ => "model"
  path_join := fun a b => a ++ "/" ++ b
  stbi_load := fun _ => true
  compile_status := fun _ => true
  link_status := fun _ _ => true
  uninitialized := 0

/-- A world in which nothing has happened yet. -/
def sample_world : World ℚ := ⟨1, [], []⟩

/-- Rational stand-ins for the `<cmath>` functions (truncated series, one Newton step). -/
def sample_math : FloatMath ℚ where
  cos := fun x => 1 - x ^ 2 / 2
  sin := fun x => x - x ^ 3 / 6
  tan := fun x => x + x ^ 3 / 3
  sqrt := fun x => (x + 1) / 2
  pi := 355 / 113

/-- The rounding of an idealised format in which every rational is representable. -/
def exact_rounding : ℚ → Ieee := Ieee.fin

/-- A function on the rationals as a function of the idealised format: its value on a finite
argument, not-a-number on the others. -/
def sample_lift (f : ℚ → ℚ) (x : Fp exact_rounding) : Fp exact_rounding :=
  if x.val.isNaN || x.val.isInf then ⟨Ieee.nan⟩ else ⟨Ieee.fin (f x.val.toRat)⟩

/-- A math library for the idealised format, from the rational stand-ins of `sample_math`. -/
def sample_float_math : FloatMath (Fp exact_rounding) where
  cos := sample_lift sample_math.cos
  sin := sample_lift sample_math.sin
  tan := sample_lift sample_math.tan
  sqrt := sample_lift sample_math.sqrt
  pi := ⟨Ieee.fin sample_math.pi⟩

/-- The renderer right after construction for a 1600 by 900 viewport. -/
def sample_start : Renderer ℚ × World ℚ :=
  Renderer.init sample_math sample_libs sample_world 1600 900

/-- The renderer after construction and one `load_model("model/spot.obj")`. -/
def sample_loaded : Renderer ℚ × World ℚ :=
  (Renderer.load_model sample_libs sample_start.1 sample_start.2 "model/spot.obj").getD
    sample_start

/-- Three textures as a load leaves them: two diffuse, one specular. -/
def sample_textures : List Texture :=
  [⟨"model/wood.png", 17, TextureType.DIFFUSE⟩, ⟨"model/metal.png", 18, TextureType.DIFFUSE⟩,
   ⟨"model/gloss.png", 19, TextureType.SPECULAR⟩]

/-- A mesh with four texture references into `sample_textures`. -/
def sample_drawn_mesh : Mesh ℚ where
  vertices := []
  indices := [0, 1, 2]
  material := ⟨⟨1, 0, 0⟩, ⟨0, 1, 0⟩, ⟨0, 0, 1⟩, 32⟩
  indices_of_textures := [2, 0, 2, 1]
  VAO := 20
  VBO := 21
  EBO := 22

/-- A shader whose program is object 3. -/
def sample_shader : Shader := ⟨1, 2, 3⟩

/-- A material with one diffuse texture and no specular texture. -/
def minimal_material : AiMaterial ℚ where
  color_diffuse := some ⟨1, 1, 1⟩
  color_specular := some ⟨0, 0, 0⟩
  color_ambient := some ⟨0, 0, 0⟩
  shininess := some 1
  textures_diffuse := ["spot.png"]
  textures_specular := []

/-- One triangle. -/
def minimal_mesh : AiMesh ℚ where
  mNumVertices := 3
  mVertices := fun i => ⟨i, i * i, 0⟩
  mNormals := some fun _ => ⟨0, 0, 1⟩
  mTextureCoords0 := none
  mFaces := [[0, 1, 2]]
  mMaterialIndex := 0

/-- A scene of one node, one mesh and one material. -/
def minimal_scene : AiScene ℚ where
  mFlags_incomplete := false
  mRootNode := some (AiNode.mk [0] [])
  mMeshes := [minimal_mesh]
  mMaterials := [some minimal_material]

/-- Libraries like `sample_libs` that import `minimal_scene` from every path. -/
def minimal_libs : Extern ℚ := { sample_libs with ReadFile := fun _ => some minimal_scene }

/-- A material whose diffuse slot and specular slot name the same image file. -/
def shared_material : AiMaterial ℚ where
  color_diffuse := some ⟨1, 1, 1⟩
  color_specular := some ⟨1, 1, 1⟩
  color_ambient := none
  shininess := some 8
  textures_diffuse := ["shared.png"]
  textures_specular := ["shared.png"]

/-- A scene of one triangle with `shared_material`. -/
def shared_scene : AiScene ℚ where
  mFlags_incomplete := false
  mRootNode := some (AiNode.mk [0] [])
  mMeshes := [sample_mesh 0]
  mMaterials := [some shared_material]

/-- Libraries like `sample_libs` that import `shared_scene` from every path. -/
def shared_libs : Extern ℚ := { sample_libs with ReadFile := fun _ => some shared_scene }

/-! ## Theorems -/

set_option linter.unusedSectionVars false

section Lemmas

variable {F : Type} [LinearOrderedField F]

theorem process_node_meshes_append (E : Extern F) (scene : AiScene F) (pp : String)
    (l1 l2 : List Nat) (model : Model F) (w : World F) :
    Model.process_node_meshes E scene pp (l1 ++ l2) model w
      = (Model.process_node_meshes E scene pp l1 model w).bind
          fun s => Model.process_node_meshes E scene pp l2 s.1 s.2 := by
  induction l1 generalizing model w with
  | nil => simp [Model.process_node_meshes]
  | cons i rest ih =>
    simp only [List.cons_append, Model.process_node_meshes]
    cases scene.mMeshes[i]? with
    | none => simp
    | some mesh =>
      simp only
      cases Model.process_mesh E scene pp mesh model.textures w with
      | none => simp
      | some r => exact ih _ _

mutual
theorem process_node_flat (E : Extern F) (scene : AiScene F) (pp : String) :
    ∀ (node : AiNode) (model : Model F) (w : World F),
      Model.process_node E scene pp node model w
        = Model.process_node_meshes E scene pp node.mesh_refs model w
  | AiNode.mk mMeshes mChildren, model, w => by
    rw [Model.process_node, AiNode.mesh_refs, process_node_meshes_append]
    cases Model.process_node_meshes E scene pp mMeshes model w with
    | none => simp
    | some s => simp [process_children_flat E scene pp mChildren s.1 s.2]
theorem process_children_flat (E : Extern F) (scene : AiScene F) (pp : String) :
    ∀ (children : List AiNode) (model : Model F) (w : World F),
      Model.process_children E scene pp children model w
        = Model.process_node_meshes E scene pp (AiNode.mesh_refs_children children) model w
  | [], model, w => by simp [Model.process_children, AiNode.mesh_refs_children, Model.process_node_meshes]
  | child :: rest, model, w => by
    rw [Model.process_children, AiNode.mesh_refs_children, process_node_meshes_append,
      process_node_flat E scene pp child model w]
    cases Model.process_node_meshes E scene pp child.mesh_refs model w with
    | none => simp
    | some s => simp [process_children_flat E scene pp rest s.1 s.2]
end

theorem mem_first_occurrences (p : String) (l : List String) :
    p ∈ first_occurrences l ↔ p ∈ l := by
  induction l with
  | nil => simp [first_occurrences]
  | cons a rest ih =>
    simp only [first_occurrences, List.mem_cons, List.mem_filter, ih, decide_eq_true_eq]
    by_cases h : p = a <;> simp [h]

theorem nodup_first_occurrences (l : List String) : (first_occurrences l).Nodup := by
  induction l with
  | nil => simp [first_occurrences]
  | cons a rest ih =>
    simp only [first_occurrences, List.nodup_cons, List.mem_filter, decide_eq_true_eq]
    exact ⟨fun h => h.2 rfl, ih.filter _⟩

theorem length_first_occurrences (l : List String) :
    (first_occurrences l).length = l.toFinset.card := by
  rw [← List.toFinset_card_of_nodup (nodup_first_occurrences l)]
  congr 1
  ext p
  simp [mem_first_occurrences]

theorem foldl_add_path (acc l : List String) :
    l.foldl add_path acc
      = acc ++ (first_occurrences l).filter fun q => decide (q ∉ acc) := by
  induction l generalizing acc with
  | nil => simp [first_occurrences]
  | cons p rest ih =>
    simp only [List.foldl_cons, first_occurrences]
    by_cases h : p ∈ acc
    · rw [add_path, if_pos h, ih, List.filter_cons_of_neg (by simpa using h), List.filter_filter]
      congr 1
      apply List.filter_congr
      intro q _
      by_cases hq : q ∈ acc
      · simp [hq]
      · have : q ≠ p := fun e => hq (e ▸ h)
        simp [hq, this]
    · rw [add_path, if_neg h, ih, List.filter_cons_of_pos (by simpa using h), List.filter_filter,
        List.append_assoc]
      congr 1
      rw [List.singleton_append]
      congr 1
      apply List.filter_congr
      intro q _
      simp [not_or]

theorem foldl_add_path_nil (l : List String) : l.foldl add_path [] = first_occurrences l := by
  rw [foldl_add_path]
  simp

theorem has_texture_from_none (p : String) (ts : List Texture) (i : Nat) :
    Model.has_texture_from p ts i = none ↔ p ∉ ts.map Texture.filepath := by
  induction ts generalizing i with
  | nil => simp [Model.has_texture_from]
  | cons t rest ih =>
    simp only [Model.has_texture_from, List.map_cons, List.mem_cons, not_or]
    by_cases h : t.filepath = p
    · simp [h]
    · rw [if_neg h, ih]
      exact ⟨fun hr => ⟨fun e => h e.symm, hr⟩, fun hr => hr.2⟩

theorem has_texture_from_some (p : String) (ts : List Texture) (i j : Nat)
    (h : Model.has_texture_from p ts i = some j) : j < i + ts.length := by
  induction ts generalizing i with
  | nil => simp [Model.has_texture_from] at h
  | cons t rest ih =>
    simp only [Model.has_texture_from] at h
    by_cases ht : t.filepath = p
    · rw [if_pos ht] at h
      simp only [Option.some.injEq] at h
      simp only [List.length_cons]
      omega
    · rw [if_neg ht] at h
      have := ih (i + 1) h
      simp only [List.length_cons]
      omega

theorem to_unsigned_int_le (n : Nat) : to_unsigned_int n ≤ n := Nat.mod_le _ _

theorem SlotSteps.refl (s : List Texture × List Nat × World F) : SlotSteps [] s s :=
  ⟨rfl, le_refl _, fun h => h, rfl, List.prefix_refl _⟩

theorem SlotSteps.trans {ps qs : List String} {s s1 s2 : List Texture × List Nat × World F}
    (h1 : SlotSteps ps s s1) (h2 : SlotSteps qs s1 s2) : SlotSteps (ps ++ qs) s s2 :=
  ⟨by rw [h2.paths, h1.paths, List.foldl_append], le_trans h1.length_le h2.length_le,
   fun h => h2.valid (h1.valid h), by rw [h2.store, h1.store], h1.trace.trans h2.trace⟩

theorem process_texture_step (E : Extern F) (pp : String) (k : TextureType)
    (s : List Texture × List Nat × World F) (str : String) :
    SlotSteps [E.path_join pp str] s (Model.process_texture E pp k s str) := by
  obtain ⟨ts, is, w⟩ := s
  simp only [Model.process_texture, Model.has_texture]
  cases hq : Model.has_texture_from (E.path_join pp str) ts 0 with
  | none =>
    have hn := (has_texture_from_none _ _ _).1 hq
    refine ⟨?_, ?_, ?_, ?_, ?_⟩
    · simp [add_path, hn, Texture.create, World.gen]
    · simp
    · intro hv i hi
      simp only [List.mem_append, List.mem_singleton, List.length_append, List.length_singleton] at hi ⊢
      rcases hi with hi | hi
      · have := hv i hi
        simp only at this
        omega
      · have := to_unsigned_int_le ts.length
        omega
    · simp only [Texture.create, World.gen, World.emit]
      split <;> rfl
    · simp only [Texture.create, World.gen, World.emit]
      split
      · exact (List.prefix_append _ _).trans (List.prefix_append _ _)
      · exact List.prefix_append _ _
  | some j =>
    have hj := has_texture_from_some _ _ _ _ hq
    have hm : E.path_join pp str ∈ ts.map Texture.filepath := by
      by_contra hc
      rw [(has_texture_from_none _ _ 0).2 hc] at hq
      exact Option.noConfusion hq
    refine ⟨?_, le_refl _, ?_, rfl, List.prefix_refl _⟩
    · simp [add_path, hm]
    · intro hv i hi
      simp only [List.mem_append, List.mem_singleton] at hi ⊢
      rcases hi with hi | hi
      · exact hv i hi
      · have := to_unsigned_int_le j
        omega

theorem process_texture_foldl (E : Extern F) (pp : String) (k : TextureType)
    (names : List String) (s : List Texture × List Nat × World F) :
    SlotSteps (names.map (E.path_join pp)) s
      (names.foldl (Model.process_texture E pp k) s) := by
  induction names generalizing s with
  | nil => exact SlotSteps.refl s
  | cons n rest ih =>
    simp only [List.map_cons, List.foldl_cons]
    exact (process_texture_step E pp k s n).trans (ih _)

theorem process_mesh_sound (E : Extern F) (scene : AiScene F) (pp : String) (mesh : AiMesh F)
    (ts : List Texture) (w : World F) (r : Mesh F × List Texture × World F)
    (h : Model.process_mesh E scene pp mesh ts w = some r) : MeshStep E scene pp mesh ts w r := by
  cases hmat : scene.mMaterials[mesh.mMaterialIndex]? with
  | none => simp [Model.process_mesh, hmat] at h
  | some mat =>
    cases mat with
    | none =>
      simp only [Model.process_mesh, hmat, Option.some.injEq] at h
      subst h
      refine ⟨?_, le_refl _, ?_, rfl, ?_⟩
      · simp [AiScene.material_slots, hmat]
      · intro i hi
        simp [Mesh.create] at hi
      · simp only [Mesh.create, World.gen]
        exact ((List.prefix_append _ _).trans (List.prefix_append _ _)).trans
          (List.prefix_append _ _)
    | some mat =>
      simp only [Model.process_mesh, hmat, Option.some.injEq] at h
      subst h
      have hs := (process_texture_foldl E pp TextureType.DIFFUSE mat.textures_diffuse
        (ts, [], w)).trans (process_texture_foldl E pp TextureType.SPECULAR mat.textures_specular
        (mat.textures_diffuse.foldl (Model.process_texture E pp TextureType.DIFFUSE) (ts, [], w)))
      refine ⟨?_, hs.length_le, ?_, hs.store, ?_⟩
      · simpa [AiScene.material_slots, hmat] using hs.paths
      · exact hs.valid (by simp)
      · refine hs.trace.trans ?_
        simp only [Mesh.create, World.gen]
        exact ((List.prefix_append _ _).trans (List.prefix_append _ _)).trans
          (List.prefix_append _ _)

theorem process_mesh_isSome (E : Extern F) (scene : AiScene F) (pp : String) (mesh : AiMesh F)
    (ts : List Texture) (w : World F) (h : mesh.mMaterialIndex < scene.mMaterials.length) :
    ∃ r, Model.process_mesh E scene pp mesh ts w = some r := by
  obtain ⟨mat, hmat⟩ : ∃ mat, scene.mMaterials[mesh.mMaterialIndex]? = some mat :=
    ⟨_, List.getElem?_eq_getElem h⟩
  cases mat with
  | none =>
    simp only [Model.process_mesh, hmat]
    exact ⟨_, rfl⟩
  | some mat =>
    simp only [Model.process_mesh, hmat]
    exact ⟨_, rfl⟩

theorem process_node_meshes_sound (E : Extern F) (scene : AiScene F) (pp : String)
    (refs : List Nat) (model : Model F) (w : World F) (s1 : Model F × World F)
    (h : Model.process_node_meshes E scene pp refs model w = some s1) :
    LoadStep E scene pp refs (model, w) s1 := by
  induction refs generalizing model w with
  | nil =>
    simp only [Model.process_node_meshes, Option.some.injEq] at h
    subst h
    exact ⟨by simp [AiScene.slot_paths], le_refl _, fun hv => hv, rfl, List.prefix_refl _, rfl⟩
  | cons i rest ih =>
    simp only [Model.process_node_meshes] at h
    cases hmesh : scene.mMeshes[i]? with
    | none => simp [hmesh] at h
    | some mesh =>
      simp only [hmesh] at h
      cases hpm : Model.process_mesh E scene pp mesh model.textures w with
      | none => simp [hpm] at h
      | some r =>
        simp only [hpm] at h
        have hm := process_mesh_sound E scene pp mesh model.textures w r hpm
        have hl := ih _ _ h
        refine ⟨?_, le_trans hm.length_le hl.length_le, ?_, hl.store.trans hm.store,
          hm.trace.trans hl.trace, ?_⟩
        · rw [hl.paths]
          simp only [AiScene.slot_paths, List.flatMap_cons, hmesh, List.foldl_append]
          rw [← hm.paths]
        · intro hv
          apply hl.valid
          intro m hmem i hi
          simp only [List.mem_append, List.mem_singleton] at hmem
          rcases hmem with hmem | hmem
          · exact lt_of_lt_of_le (hv m hmem i hi) hm.length_le
          · subst hmem
            exact hm.valid i hi
        · have hc := hl.count
          simp only [List.length_append, List.length_cons, List.length_nil] at hc ⊢
          omega

theorem process_node_meshes_isSome (E : Extern F) (scene : AiScene F) (pp : String)
    (refs : List Nat) (model : Model F) (w : World F)
    (hrefs : ∀ i ∈ refs, i < scene.mMeshes.length)
    (hmat : ∀ mesh ∈ scene.mMeshes, mesh.mMaterialIndex < scene.mMaterials.length) :
    ∃ s1, Model.process_node_meshes E scene pp refs model w = some s1 := by
  induction refs generalizing model w with
  | nil => exact ⟨_, rfl⟩
  | cons i rest ih =>
    have hi : i < scene.mMeshes.length := hrefs i (List.mem_cons_self _ _)
    have hmesh : scene.mMeshes[i]? = some scene.mMeshes[i] := List.getElem?_eq_getElem hi
    obtain ⟨r, hr⟩ := process_mesh_isSome E scene pp scene.mMeshes[i] model.textures w
      (hmat _ (List.getElem_mem _))
    simp only [Model.process_node_meshes, hmesh, hr]
    exact ih _ _ fun j hj => hrefs j (List.mem_cons_of_mem _ hj)
theorem load_model_of_scene (E : Extern F) (model : Model F) (w : World F) (filepath : String)
    (scene : AiScene F) (root : AiNode) (hread : E.ReadFile filepath = some scene)
    (hflag : scene.mFlags_incomplete = false) (hroot : scene.mRootNode = some root) :
    Model.load_model E model w filepath
      = Model.process_node_meshes E scene (E.parent_path filepath) root.mesh_refs model
          (w.emit (Effect.ReadFile filepath)) := by
  simp [Model.load_model, hread, hflag, hroot, process_node_flat]

theorem draw_textures_isSome (shader : Shader) (textures : List Texture) (its : List Nat)
    (i nd ns : Nat) (w : World F) (h : ∀ j ∈ its, j < textures.length) :
    ∃ r, Mesh.draw_textures shader textures its i nd ns w = some r := by
  induction its generalizing i nd ns w with
  | nil => exact ⟨_, rfl⟩
  | cons j rest ih =>
    have hj : j < textures.length := h j (List.mem_cons_self _ _)
    have hrest : ∀ k ∈ rest, k < textures.length := fun k hk => h k (List.mem_cons_of_mem _ hk)
    have hget : textures[j]? = some textures[j] := List.getElem?_eq_getElem hj
    simp only [Mesh.draw_textures, hget]
    cases textures[j].texture_type with
    | DIFFUSE => exact ih _ _ _ _ hrest
    | SPECULAR => exact ih _ _ _ _ hrest

theorem mesh_draw_isSome (m : Mesh F) (shader : Shader) (textures : List Texture) (w : World F)
    (h : ∀ j ∈ m.indices_of_textures, j < textures.length) :
    ∃ w1, m.draw shader textures w = some w1 := by
  simp only [Mesh.draw]
  obtain ⟨r, hr⟩ := draw_textures_isSome shader textures m.indices_of_textures 0 0 0
    ((((shader.set_uniform w "kd" (UniformValue.vec3 m.material.kd)).emit
      (Effect.glUniform shader.program "ks" (UniformValue.vec3 m.material.ks))).emit
      (Effect.glUniform shader.program "ka" (UniformValue.vec3 m.material.ka))).emit
      (Effect.glUniform shader.program "shininess" (UniformValue.float m.material.shininess))) h
  simp only [Shader.set_uniform] at hr ⊢
  rw [hr]
  exact ⟨_, rfl⟩

theorem meshes_draw_isSome (meshes : List (Mesh F)) (shader : Shader) (textures : List Texture)
    (w : World F) (h : ∀ m ∈ meshes, ∀ j ∈ m.indices_of_textures, j < textures.length) :
    ∃ w1, meshes.foldlM (fun w mesh => Mesh.draw mesh shader textures w) w = some w1 := by
  induction meshes generalizing w with
  | nil => exact ⟨w, rfl⟩
  | cons m rest ih =>
    obtain ⟨w1, hw1⟩ := mesh_draw_isSome m shader textures w (h m (List.mem_cons_self _ _))
    simp only [List.foldlM_cons, hw1, Option.bind_eq_bind, Option.some_bind]
    exact ih w1 fun m hm => h m (List.mem_cons_of_mem _ hm)

theorem load_model_sound (E : Extern F) (model : Model F) (w : World F) (filepath : String)
    (s1 : Model F × World F) (h : Model.load_model E model w filepath = some s1) :
    ∃ scene refs, LoadStep E scene (E.parent_path filepath) refs
      (model, w.emit (Effect.ReadFile filepath)) s1 := by
  have hnil : ∀ scene : AiScene F, LoadStep E scene (E.parent_path filepath) []
      (model, w.emit (Effect.ReadFile filepath)) (model, w.emit (Effect.ReadFile filepath)) :=
    fun scene => process_node_meshes_sound E scene _ [] _ _ _ rfl
  simp only [Model.load_model] at h
  cases hread : E.ReadFile filepath with
  | none =>
    simp only [hread, Option.some.injEq] at h
    subst h
    exact ⟨⟨false, none, [], []⟩, [], hnil _⟩
  | some scene =>
    simp only [hread] at h
    cases hflag : scene.mFlags_incomplete with
    | true =>
      simp only [hflag, if_true, Option.some.injEq] at h
      subst h
      exact ⟨scene, [], hnil _⟩
    | false =>
      cases hroot : scene.mRootNode with
      | none =>
        simp only [hflag, hroot, Option.some.injEq, Bool.false_eq_true, if_false] at h
        subst h
        exact ⟨scene, [], hnil _⟩
      | some root =>
        simp only [hflag, hroot, Bool.false_eq_true, if_false, process_node_flat] at h
        exact ⟨scene, root.mesh_refs, process_node_meshes_sound E scene _ _ _ _ _ h⟩

theorem LoadStep.guard {E : Extern F} {scene : AiScene F} {pp : String} {refs : List Nat}
    {s s1 : Model F × World F} (h : LoadStep E scene pp refs s s1)
    (hs : s.1.meshes = [] → s.1.textures = []) : s1.1.meshes = [] → s1.1.textures = [] := by
  intro hm
  have hc := h.count
  rw [hm] at hc
  simp only [List.length_nil] at hc
  have hrefs : refs = [] := List.length_eq_zero.1 (by omega)
  have hsm : s.1.meshes = [] := List.length_eq_zero.1 (by omega)
  have hp := h.paths
  rw [hrefs, hs hsm] at hp
  simpa [AiScene.slot_paths] using hp

theorem model_destroy_eq (model : Model F) (w : World F) :
    model.destroy w = (Model.empty, { w with trace := w.trace ++ model.release_calls }) := by
  have hmeshes : ∀ (ms : List (Mesh F)) (w : World F),
      ms.foldl (fun w mesh => (Mesh.destroy mesh w).2) w
        = { w with trace := w.trace ++ ms.flatMap fun mesh =>
            [Effect.glDeleteBuffers mesh.VBO, Effect.glDeleteBuffers mesh.EBO,
             Effect.glDeleteVertexArrays mesh.VAO] } := by
    intro ms
    induction ms with
    | nil => intro w; simp
    | cons m rest ih =>
      intro w
      rw [List.foldl_cons, ih]
      simp [Mesh.destroy, World.emit]
  have htex : ∀ (ts : List Texture) (w : World F),
      ts.foldl (fun w texture => Texture.destroy texture w) w
        = { w with trace := w.trace ++ ts.map fun texture => Effect.glDeleteTextures texture.id } := by
    intro ts
    induction ts with
    | nil => intro w; simp
    | cons t rest ih =>
      intro w
      rw [List.foldl_cons, ih]
      simp [Texture.destroy, World.emit]
  simp only [Model.destroy, hmeshes, htex, Model.release_calls, Model.empty, List.append_assoc]

theorem draw_textures_store (shader : Shader) (textures : List Texture) (its : List Nat)
    (i nd ns : Nat) (w : World F) (r : Nat × Nat × World F)
    (h : Mesh.draw_textures shader textures its i nd ns w = some r) :
    r.2.2.uniform_data = w.uniform_data := by
  induction its generalizing i nd ns w with
  | nil =>
    simp only [Mesh.draw_textures, Option.some.injEq] at h
    subst h
    rfl
  | cons j rest ih =>
    simp only [Mesh.draw_textures] at h
    cases hget : textures[j]? with
    | none => simp [hget] at h
    | some t =>
      simp only [hget] at h
      cases ht : t.texture_type with
      | DIFFUSE =>
        simp only [ht] at h
        exact (ih _ _ _ _ h).trans rfl
      | SPECULAR =>
        simp only [ht] at h
        exact (ih _ _ _ _ h).trans rfl

theorem mesh_draw_store (m : Mesh F) (shader : Shader) (textures : List Texture) (w w1 : World F)
    (h : m.draw shader textures w = some w1) : w1.uniform_data = w.uniform_data := by
  simp only [Mesh.draw] at h
  split at h
  · exact Option.noConfusion h
  · rename_i nd ns w2 hd
    simp only [Option.some.injEq] at h
    subst h
    exact draw_textures_store shader textures _ _ _ _ _ _ hd

theorem model_draw_store (model : Model F) (shader : Shader) (w w1 : World F)
    (h : model.draw shader w = some w1) : w1.uniform_data = w.uniform_data := by
  simp only [Model.draw] at h
  generalize model.meshes = ms at h
  induction ms generalizing w with
  | nil =>
    simp only [List.foldlM_nil, Option.pure_def, Option.some.injEq] at h
    subst h
    rfl
  | cons m rest ih =>
    simp only [List.foldlM_cons, Option.bind_eq_bind] at h
    cases hm : m.draw shader model.textures w with
    | none => simp [hm] at h
    | some w2 =>
      simp only [hm, Option.some_bind] at h
      exact (ih _ h).trans (mesh_draw_store m shader _ _ _ hm)

theorem render_store (r : Renderer F) (w w1 : World F) (h : r.render w = some w1) :
    w1.uniform_data = w.uniform_data := by
  simp only [Renderer.render] at h
  cases hmode : r.render_mode <;> simp only [hmode] at h <;> exact model_draw_store _ _ _ _ h


theorem renderer_load_model_eq (E : Extern F) (r : Renderer F) (w : World F) (filepath : String)
    (hg : r.model.meshes = [] → r.model.textures = []) :
    r.load_model E w filepath
      = (Model.load_model E Model.empty
          { w with trace := w.trace ++ r.model.release_calls } filepath).map
          fun s => ({ r with model := s.1 }, s.2) := by
  by_cases hb : r.model.toBool = true
  · simp only [Renderer.load_model, hb, if_true, model_destroy_eq]
    cases Model.load_model E Model.empty
      { w with trace := w.trace ++ r.model.release_calls } filepath <;> rfl
  · have hm : r.model.meshes = [] := by
      simp only [Model.toBool, decide_eq_true_eq, not_lt, Nat.le_zero, gt_iff_lt] at hb
      exact List.length_eq_zero.1 hb
    have hmodel : r.model = Model.empty := by
      cases hmod : r.model with
      | mk meshes textures =>
        rw [hmod] at hm hg
        simp only at hm
        simp only [Model.empty, Model.mk.injEq]
        exact ⟨hm, hg hm⟩
    have hw : ({ w with trace := w.trace ++ r.model.release_calls } : World F) = w := by
      rw [hmodel]
      simp [Model.release_calls, Model.empty]
    rw [hw]
    simp only [Renderer.load_model, hb, Bool.false_eq_true, if_false]
    rw [hmodel]
    cases Model.load_model E Model.empty w filepath <;> rfl

theorem reachable_invariant (M : FloatMath F) (E : Extern F) {r : Renderer F} {w : World F}
    (h : Renderer.Reachable M E r w) :
    w.uploaded r.camera_UBO = some r.camera_block ∧
    (r.model.meshes = [] → r.model.textures = []) := by
  induction h with
  | init w width height =>
    constructor
    · simp [Renderer.init, World.uploaded, World.upload, Shader.set_UBO, World.emit, World.gen]
    · intro _
      simp [Renderer.init, Model.empty]
  | step op hreach hstep ih =>
    rename_i r0 w0 r1 w1
    obtain ⟨hup, hg⟩ := ih
    cases op with
    | render =>
      simp only [Renderer.step, Option.map_eq_some'] at hstep
      obtain ⟨w2, hw2, heq⟩ := hstep
      simp only [Prod.mk.injEq] at heq
      obtain ⟨rfl, rfl⟩ := heq
      refine ⟨?_, hg⟩
      simp only [World.uploaded] at hup ⊢
      rw [render_store _ _ _ hw2, hup]
    | load_model filepath =>
      simp only [Renderer.step] at hstep
      rw [renderer_load_model_eq E r0 w0 filepath hg, Option.map_eq_some'] at hstep
      obtain ⟨s, hs, heq⟩ := hstep
      simp only [Prod.mk.injEq] at heq
      obtain ⟨rfl, rfl⟩ := heq
      obtain ⟨scene, refs, hl⟩ := load_model_sound E _ _ _ _ hs
      constructor
      · simp only [World.uploaded] at hup ⊢
        rw [hl.store]
        exact hup
      · exact hl.guard (fun _ => rfl)
    | set_resulution width height =>
      simp only [Renderer.step, Option.some.injEq, Prod.mk.injEq] at hstep
      obtain ⟨rfl, rfl⟩ := hstep
      exact ⟨by simp [Renderer.set_resulution, Renderer.update_camera_UBO, World.uploaded,
        World.upload], hg⟩
    | set_render_mode render_mode =>
      simp only [Renderer.step, Option.some.injEq, Prod.mk.injEq] at hstep
      obtain ⟨rfl, rfl⟩ := hstep
      exact ⟨hup, hg⟩
    | set_camera_fov fov =>
      simp only [Renderer.step, Option.some.injEq, Prod.mk.injEq] at hstep
      obtain ⟨rfl, rfl⟩ := hstep
      exact ⟨by simp [Renderer.set_camera_fov, Renderer.update_camera_UBO, World.uploaded,
        World.upload], hg⟩
    | set_camera_movement_speed s =>
      simp only [Renderer.step, Option.some.injEq, Prod.mk.injEq] at hstep
      obtain ⟨rfl, rfl⟩ := hstep
      exact ⟨hup, hg⟩
    | reset_camera =>
      simp only [Renderer.step, Option.some.injEq, Prod.mk.injEq] at hstep
      obtain ⟨rfl, rfl⟩ := hstep
      exact ⟨hup, hg⟩
    | move_camera direction deltaTime =>
      simp only [Renderer.step, Option.some.injEq, Prod.mk.injEq] at hstep
      obtain ⟨rfl, rfl⟩ := hstep
      exact ⟨by simp [Renderer.move_camera, Renderer.update_camera_UBO, World.uploaded,
        World.upload], hg⟩
    | set_camera_look_around_speed s =>
      simp only [Renderer.step, Option.some.injEq, Prod.mk.injEq] at hstep
      obtain ⟨rfl, rfl⟩ := hstep
      exact ⟨hup, hg⟩
    | look_around_camera dPhi dTheta =>
      simp only [Renderer.step, Option.some.injEq, Prod.mk.injEq] at hstep
      obtain ⟨rfl, rfl⟩ := hstep
      exact ⟨by simp [Renderer.look_around_camera, Renderer.update_camera_UBO, World.uploaded,
        World.upload], hg⟩

theorem sample_loaded_reachable :
    Renderer.Reachable sample_math sample_libs sample_loaded.1 sample_loaded.2 :=
  Renderer.Reachable.step (RendererOp.load_model "model/spot.obj")
    (Renderer.Reachable.init sample_world 1600 900) (by rfl)

theorem fresh_init (M : FloatMath F) (E : Extern F) (w : World F) (width height : Int) :
    Renderer.Fresh M (Renderer.init M E w width height).1 (Renderer.init M E w width height).2 :=
  ⟨rfl, rfl, (reachable_invariant M E (Renderer.Reachable.init w width height)).1⟩

theorem fresh_step_unless_reset (M : FloatMath F) (E : Extern F) {r r1 : Renderer F}
    {w w1 : World F} (hreach : Renderer.Reachable M E r w) (hf : Renderer.Fresh M r w)
    (op : RendererOp F) (hop : op ≠ RendererOp.reset_camera)
    (hstep : Renderer.step M E r w op = some (r1, w1)) : Renderer.Fresh M r1 w1 := by
  have hup := (reachable_invariant M E (Renderer.Reachable.step op hreach hstep)).1
  obtain ⟨hv, hp, _⟩ := hf
  refine ⟨?_, ?_, hup⟩
  · cases op with
    | reset_camera => exact absurd rfl hop
    | render =>
      simp only [Renderer.step, Option.map_eq_some'] at hstep
      obtain ⟨w2, _, heq⟩ := hstep
      simp only [Prod.mk.injEq] at heq
      obtain ⟨rfl, rfl⟩ := heq
      exact hv
    | load_model filepath =>
      simp only [Renderer.step, Renderer.load_model] at hstep
      split at hstep
      · exact Option.noConfusion hstep
      · simp only [Option.some.injEq, Prod.mk.injEq] at hstep
        obtain ⟨rfl, rfl⟩ := hstep
        exact hv
    | move_camera direction deltaTime =>
      simp only [Renderer.step, Option.some.injEq, Prod.mk.injEq] at hstep
      obtain ⟨rfl, rfl⟩ := hstep
      rfl
    | look_around_camera dPhi dTheta =>
      simp only [Renderer.step, Option.some.injEq, Prod.mk.injEq] at hstep
      obtain ⟨rfl, rfl⟩ := hstep
      rfl
    | set_resulution _ _ =>
      simp only [Renderer.step, Option.some.injEq, Prod.mk.injEq] at hstep
      obtain ⟨rfl, rfl⟩ := hstep
      exact hv
    | set_render_mode _ =>
      simp only [Renderer.step, Option.some.injEq, Prod.mk.injEq] at hstep
      obtain ⟨rfl, rfl⟩ := hstep
      exact hv
    | set_camera_fov _ =>
      simp only [Renderer.step, Option.some.injEq, Prod.mk.injEq] at hstep
      obtain ⟨rfl, rfl⟩ := hstep
      exact hv
    | set_camera_movement_speed _ =>
      simp only [Renderer.step, Option.some.injEq, Prod.mk.injEq] at hstep
      obtain ⟨rfl, rfl⟩ := hstep
      exact hv
    | set_camera_look_around_speed _ =>
      simp only [Renderer.step, Option.some.injEq, Prod.mk.injEq] at hstep
      obtain ⟨rfl, rfl⟩ := hstep
      exact hv
  · cases op with
    | reset_camera => exact absurd rfl hop
    | render =>
      simp only [Renderer.step, Option.map_eq_some'] at hstep
      obtain ⟨w2, _, heq⟩ := hstep
      simp only [Prod.mk.injEq] at heq
      obtain ⟨rfl, rfl⟩ := heq
      exact hp
    | load_model filepath =>
      simp only [Renderer.step, Renderer.load_model] at hstep
      split at hstep
      · exact Option.noConfusion hstep
      · simp only [Option.some.injEq, Prod.mk.injEq] at hstep
        obtain ⟨rfl, rfl⟩ := hstep
        exact hp
    | move_camera direction deltaTime =>
      simp only [Renderer.step, Option.some.injEq, Prod.mk.injEq] at hstep
      obtain ⟨rfl, rfl⟩ := hstep
      cases direction <;> exact hp
    | look_around_camera dPhi dTheta =>
      simp only [Renderer.step, Option.some.injEq, Prod.mk.injEq] at hstep
      obtain ⟨rfl, rfl⟩ := hstep
      exact hp
    | set_resulution _ _ =>
      simp only [Renderer.step, Option.some.injEq, Prod.mk.injEq] at hstep
      obtain ⟨rfl, rfl⟩ := hstep
      rfl
    | set_render_mode _ =>
      simp only [Renderer.step, Option.some.injEq, Prod.mk.injEq] at hstep
      obtain ⟨rfl, rfl⟩ := hstep
      exact hp
    | set_camera_fov _ =>
      simp only [Renderer.step, Option.some.injEq, Prod.mk.injEq] at hstep
      obtain ⟨rfl, rfl⟩ := hstep
      rfl
    | set_camera_movement_speed _ =>
      simp only [Renderer.step, Option.some.injEq, Prod.mk.injEq] at hstep
      obtain ⟨rfl, rfl⟩ := hstep
      exact hp
    | set_camera_look_around_speed _ =>
      simp only [Renderer.step, Option.some.injEq, Prod.mk.injEq] at hstep
      obtain ⟨rfl, rfl⟩ := hstep
      exact hp
theorem load_model_failed (E : Extern F) (model : Model F) (w : World F) (filepath : String)
    (hfail : E.ReadFile filepath = none ∨
      ∃ scene, E.ReadFile filepath = some scene ∧
        (scene.mFlags_incomplete = true ∨ scene.mRootNode = none)) :
    Model.load_model E model w filepath = some (model, w.emit (Effect.ReadFile filepath)) := by
  rcases hfail with hnone | ⟨scene, hscene, hflag | hroot⟩
  · simp [Model.load_model, hnone]
  · simp [Model.load_model, hscene, hflag]
  · simp [Model.load_model, hscene, hroot]

theorem mesh_refs_children_flatMap (children : List AiNode) :
    AiNode.mesh_refs_children children = children.flatMap AiNode.mesh_refs := by
  induction children with
  | nil => simp [AiNode.mesh_refs_children]
  | cons child rest ih => simp [AiNode.mesh_refs_children, ih]

theorem process_mesh_geometry (E : Extern F) (scene : AiScene F) (pp : String) (mesh : AiMesh F)
    (ts : List Texture) (w : World F) (r : Mesh F × List Texture × World F)
    (h : Model.process_mesh E scene pp mesh ts w = some r) :
    r.1.vertices = Model.process_vertices mesh ∧ r.1.indices = mesh.mFaces.flatten := by
  cases hmat : scene.mMaterials[mesh.mMaterialIndex]? with
  | none => simp [Model.process_mesh, hmat] at h
  | some mat =>
    cases mat with
    | none =>
      simp only [Model.process_mesh, hmat, Option.some.injEq] at h
      subst h
      exact ⟨rfl, rfl⟩
    | some mat =>
      simp only [Model.process_mesh, hmat, Option.some.injEq] at h
      subst h
      exact ⟨rfl, rfl⟩

theorem process_node_meshes_added (E : Extern F) (scene : AiScene F) (pp : String)
    (refs : List Nat) (model : Model F) (w : World F) (s1 : Model F × World F)
    (h : Model.process_node_meshes E scene pp refs model w = some s1) :
    ∃ added, s1.1.meshes = model.meshes ++ added ∧ List.Forall₂ scene.converts refs added := by
  induction refs generalizing model w with
  | nil =>
    simp only [Model.process_node_meshes, Option.some.injEq] at h
    subst h
    exact ⟨[], by simp, List.Forall₂.nil⟩
  | cons i rest ih =>
    simp only [Model.process_node_meshes] at h
    cases hmesh : scene.mMeshes[i]? with
    | none => simp [hmesh] at h
    | some mesh =>
      simp only [hmesh] at h
      cases hpm : Model.process_mesh E scene pp mesh model.textures w with
      | none => simp [hpm] at h
      | some r =>
        simp only [hpm] at h
        obtain ⟨added, hadded, hall⟩ := ih _ _ h
        have hg := process_mesh_geometry E scene pp mesh model.textures w r hpm
        refine ⟨r.1 :: added, ?_, List.Forall₂.cons ⟨mesh, hmesh, hg.1, hg.2⟩ hall⟩
        rw [hadded]
        simp

theorem draw_textures_spec (shader : Shader) (textures : List Texture) (rest pre : List Nat)
    (w : World F) (h : ∀ j ∈ rest, j < textures.length) :
    Mesh.draw_textures shader textures rest pre.length
        (count_kind textures TextureType.DIFFUSE pre)
        (count_kind textures TextureType.SPECULAR pre) w
      = some (count_kind textures TextureType.DIFFUSE (pre ++ rest),
          count_kind textures TextureType.SPECULAR (pre ++ rest),
          { w with trace := w.trace ++ (List.range rest.length).flatMap fun j =>
              Mesh.expected_binding shader.program textures (pre ++ rest) (pre.length + j) }) := by
  induction rest generalizing pre w with
  | nil => simp [Mesh.draw_textures]
  | cons x xs ih =>
    have hx : x < textures.length := h x (List.mem_cons_self _ _)
    have hxs : ∀ j ∈ xs, j < textures.length := fun j hj => h j (List.mem_cons_of_mem _ hj)
    have hget : textures[x]? = some textures[x] := List.getElem?_eq_getElem hx
    have hpre : pre ++ x :: xs = (pre ++ [x]) ++ xs := by simp
    have hhead : Mesh.expected_binding shader.program textures (pre ++ x :: xs) pre.length
        = ([Effect.glBindTexture pre.length textures[x].id,
            Effect.glUniform shader.program
              (sampler_name textures[x].texture_type
                (count_kind textures textures[x].texture_type pre))
              (UniformValue.int pre.length)] : List (Effect F)) := by
      have hat : (pre ++ x :: xs)[pre.length]? = some x := by
        rw [List.getElem?_append_right (le_refl _)]
        simp
      simp only [Mesh.expected_binding, hat, hget, List.take_left]
    have htail : ∀ j, Mesh.expected_binding shader.program textures (pre ++ x :: xs)
          (pre.length + (j + 1))
        = (Mesh.expected_binding shader.program textures ((pre ++ [x]) ++ xs)
            ((pre ++ [x]).length + j) : List (Effect F)) := by
      intro j
      rw [hpre]
      simp only [List.length_append, List.length_singleton]
      congr 1
      omega
    have hrange : ((List.range (x :: xs).length).flatMap fun j =>
          Mesh.expected_binding shader.program textures (pre ++ x :: xs) (pre.length + j))
        = (Mesh.expected_binding shader.program textures (pre ++ x :: xs) pre.length
            : List (Effect F)) ++
          (List.range xs.length).flatMap fun j =>
            Mesh.expected_binding shader.program textures ((pre ++ [x]) ++ xs)
              ((pre ++ [x]).length + j) := by
      simp only [List.length_cons, List.range_succ_eq_map, List.flatMap_cons, List.flatMap_map,
        Nat.add_zero]
      congr 1
      apply List.flatMap_congr
      intro j _
      exact htail j
    simp only [Mesh.draw_textures, hget]
    rw [hrange, hhead]
    cases hk : textures[x].texture_type with
    | DIFFUSE =>
      have hd : count_kind textures TextureType.DIFFUSE (pre ++ [x])
          = count_kind textures TextureType.DIFFUSE pre + 1 := by
        simp [count_kind, texture_kind, hget, hk, List.countP_singleton]
      have hs : count_kind textures TextureType.SPECULAR (pre ++ [x])
          = count_kind textures TextureType.SPECULAR pre := by
        simp [count_kind, texture_kind, hget, hk, List.countP_singleton]
      have hi := ih (pre ++ [x])
        (shader.set_uniform_texture w
          ("diffuseTextures[" ++ toString (count_kind textures TextureType.DIFFUSE pre) ++ "]")
          textures[x].id pre.length) hxs
      rw [hd, hs, List.length_append, List.length_singleton] at hi
      rw [hi, hpre]
      simp [Shader.set_uniform_texture, World.emit, sampler_name, List.append_assoc]
    | SPECULAR =>
      have hd : count_kind textures TextureType.DIFFUSE (pre ++ [x])
          = count_kind textures TextureType.DIFFUSE pre := by
        simp [count_kind, texture_kind, hget, hk, List.countP_singleton]
      have hs : count_kind textures TextureType.SPECULAR (pre ++ [x])
          = count_kind textures TextureType.SPECULAR pre + 1 := by
        simp [count_kind, texture_kind, hget, hk, List.countP_singleton]
      have hi := ih (pre ++ [x])
        (shader.set_uniform_texture w
          ("specularTextures[" ++ toString (count_kind textures TextureType.SPECULAR pre) ++ "]")
          textures[x].id pre.length) hxs
      rw [hd, hs, List.length_append, List.length_singleton] at hi
      rw [hi, hpre]
      simp [Shader.set_uniform_texture, World.emit, sampler_name, List.append_assoc]

theorem shader_create_names (E : Extern F) (w : World F) (vs fs : String) :
    (Shader.create E w vs fs).1 = ⟨w.next_name, w.next_name + 1, w.next_name + 2⟩ ∧
    (Shader.create E w vs fs).2.next_name = w.next_name + 3 := by
  simp only [Shader.create, World.gen, World.emit]
  split_ifs <;> exact ⟨rfl, rfl⟩

theorem renderer_destroy_trace (r : Renderer F) (w : World F) :
    (r.destroy w).2.trace
      = w.trace ++ (Effect.glDeleteBuffers r.camera_UBO :: r.model.release_calls ++
          (r.position_shader.release_calls ++ r.normal_shader.release_calls ++
            r.diffuse_shader.release_calls ++ r.specular_shader.release_calls)) := by
  simp [Renderer.destroy, model_destroy_eq, Shader.destroy, World.emit, Shader.release_calls]

theorem renderer_init_shaders (M : FloatMath F) (E : Extern F) (w : World F)
    (width height : Int) :
    (Renderer.init M E w width height).1.position_shader
      = ⟨w.next_name, w.next_name + 1, w.next_name + 2⟩ ∧
    (Renderer.init M E w width height).1.normal_shader
      = ⟨w.next_name + 3, w.next_name + 4, w.next_name + 5⟩ ∧
    (Renderer.init M E w width height).1.texCoords_shader
      = ⟨w.next_name + 6, w.next_name + 7, w.next_name + 8⟩ ∧
    (Renderer.init M E w width height).1.diffuse_shader
      = ⟨w.next_name + 9, w.next_name + 10, w.next_name + 11⟩ ∧
    (Renderer.init M E w width height).1.specular_shader
      = ⟨w.next_name + 12, w.next_name + 13, w.next_name + 14⟩ ∧
    (Renderer.init M E w width height).1.camera_UBO = w.next_name + 15 ∧
    (Renderer.init M E w width height).1.model = Model.empty := by
  simp only [Renderer.init, World.gen]
  simp only [shader_create_names]
  refine ⟨?_, ?_, ?_, ?_, ?_, ?_, ?_⟩ <;> trivial

end Lemmas

section FloatLemmas

variable {rnd : ℚ → Ieee}

theorem Ieee.le_of_not_lt_fin (x : Ieee) (a : ℚ) (hx : x.isNaN = false)
    (h : Ieee.lt x (Ieee.fin a) = false) : Ieee.le (Ieee.fin a) x = true := by
  cases x <;> simp_all [Ieee.lt, Ieee.le, Ieee.isNaN, Ieee.toRat]

theorem Ieee.le_of_not_fin_lt (x : Ieee) (a : ℚ) (hx : x.isNaN = false)
    (h : Ieee.lt (Ieee.fin a) x = false) : Ieee.le x (Ieee.fin a) = true := by
  cases x <;> simp_all [Ieee.lt, Ieee.le, Ieee.isNaN, Ieee.toRat]

theorem Fp.val_one : (1 : Fp rnd).val = Ieee.fin 1 := rfl

theorem Fp.val_zero : (0 : Fp rnd).val = Ieee.fin 0 := rfl

theorem Fp.val_ofNat (n : ℕ) [n.AtLeastTwo] :
    (OfNat.ofNat n : Fp rnd).val = Ieee.fin (OfNat.ofNat n) := rfl

theorem Fp.lt_iff (x y : Fp rnd) : x < y ↔ Ieee.lt x.val y.val = true := Iff.rfl

theorem Fp.le_iff (x y : Fp rnd) : x ≤ y ↔ Ieee.le x.val y.val = true := Iff.rfl

theorem float_look_around_theta (M : FloatMath (Fp rnd)) (c : Camera (Fp rnd))
    (dPhi dTheta : Fp rnd) :
    (c.look_around M dPhi dTheta).theta
      = (if c.theta + c.look_around_speed * dTheta < 1 then 1
         else if c.theta + c.look_around_speed * dTheta > 180 then 180
         else c.theta + c.look_around_speed * dTheta) := by
  simp only [Camera.look_around]
  by_cases h1 : c.theta + c.look_around_speed * dTheta < 1
  · have h2 : ¬ ((1 : Fp rnd) > 180) := by
      simp [GT.gt, Fp.lt_iff, Fp.val_one, Fp.val_ofNat, Ieee.lt, Ieee.isNaN, Ieee.toRat]
    rw [if_pos h1, if_neg h2, if_pos h1]
  · rw [if_neg h1, if_neg h1]

theorem float_look_around_phi (M : FloatMath (Fp rnd)) (c : Camera (Fp rnd))
    (dPhi dTheta : Fp rnd) :
    (c.look_around M dPhi dTheta).phi
      = (if c.phi + c.look_around_speed * dPhi < 0 then 360
         else if c.phi + c.look_around_speed * dPhi > 360 then 0
         else c.phi + c.look_around_speed * dPhi) := by
  simp only [Camera.look_around]
  by_cases h1 : c.phi + c.look_around_speed * dPhi < 0
  · have h2 : ¬ ((360 : Fp rnd) > 360) := by
      simp [GT.gt, Fp.lt_iff, Fp.val_ofNat, Ieee.lt, Ieee.isNaN, Ieee.toRat]
    rw [if_pos h1, if_neg h2, if_pos h1]
  · rw [if_neg h1, if_neg h1]

theorem float_theta_range (s : Fp rnd) (hs : s.isNaN = false) :
    (1 : Fp rnd) ≤ (if s < 1 then 1 else if s > 180 then 180 else s) ∧
    (if s < 1 then (1 : Fp rnd) else if s > 180 then 180 else s) ≤ 180 := by
  by_cases h1 : s < 1
  · rw [if_pos h1]
    constructor <;>
      simp [Fp.le_iff, Fp.val_one, Fp.val_ofNat, Ieee.le, Ieee.isNaN, Ieee.toRat]
  · rw [if_neg h1]
    have h1le : (1 : Fp rnd) ≤ s := by
      rw [Fp.le_iff, Fp.val_one]
      apply Ieee.le_of_not_lt_fin _ _ hs
      simpa [Fp.lt_iff, Fp.val_one] using h1
    by_cases h2 : s > 180
    · rw [if_pos h2]
      constructor <;>
        simp [Fp.le_iff, Fp.val_one, Fp.val_ofNat, Ieee.le, Ieee.isNaN, Ieee.toRat]
    · rw [if_neg h2]
      refine ⟨h1le, ?_⟩
      rw [Fp.le_iff, Fp.val_ofNat]
      apply Ieee.le_of_not_fin_lt _ _ hs
      simpa [GT.gt, Fp.lt_iff, Fp.val_ofNat] using h2

theorem float_phi_range (s : Fp rnd) (hs : s.isNaN = false) :
    (0 : Fp rnd) ≤ (if s < 0 then 360 else if s > 360 then 0 else s) ∧
    (if s < 0 then (360 : Fp rnd) else if s > 360 then 0 else s) ≤ 360 := by
  by_cases h1 : s < 0
  · rw [if_pos h1]
    constructor <;>
      simp [Fp.le_iff, Fp.val_zero, Fp.val_ofNat, Ieee.le, Ieee.isNaN, Ieee.toRat]
  · rw [if_neg h1]
    have h1le : (0 : Fp rnd) ≤ s := by
      rw [Fp.le_iff, Fp.val_zero]
      apply Ieee.le_of_not_lt_fin _ _ hs
      simpa [Fp.lt_iff, Fp.val_zero] using h1
    by_cases h2 : s > 360
    · rw [if_pos h2]
      constructor <;>
        simp [Fp.le_iff, Fp.val_zero, Fp.val_ofNat, Ieee.le, Ieee.isNaN, Ieee.toRat]
    · rw [if_neg h2]
      refine ⟨h1le, ?_⟩
      rw [Fp.le_iff, Fp.val_ofNat]
      apply Ieee.le_of_not_fin_lt _ _ hs
      simpa [GT.gt, Fp.lt_iff, Fp.val_ofNat] using h2

theorem look_around_seq_snoc (M : FloatMath (Fp rnd)) (c : Camera (Fp rnd))
    (deltas : List (Fp rnd × Fp rnd)) (dPhi dTheta : Fp rnd) :
    c.look_around_seq M (deltas ++ [(dPhi, dTheta)])
      = (c.look_around_seq M deltas).look_around M dPhi dTheta := by
  simp [Camera.look_around_seq]

theorem Fp.add_val (x y : Fp rnd) : (x + y).val = Ieee.add rnd x.val y.val := rfl

theorem Fp.mul_val (x y : Fp rnd) : (x * y).val = Ieee.mul rnd x.val y.val := rfl

theorem Ieee.add_fin_fin (rnd : ℚ → Ieee) (a b : ℚ) (h : a + b ≠ 0) :
    Ieee.add rnd (Ieee.fin a) (Ieee.fin b) = rnd (a + b) := by
  simp [Ieee.add, Ieee.isNaN, Ieee.isInf, Ieee.toRat, h]

theorem Ieee.mul_fin_fin (rnd : ℚ → Ieee) (a b : ℚ) (ha : a ≠ 0) (hb : b ≠ 0) :
    Ieee.mul rnd (Ieee.fin a) (Ieee.fin b) = rnd (a * b) := by
  simp [Ieee.mul, Ieee.isNaN, Ieee.isInf, Ieee.isZero, Ieee.toRat, ha, hb]

theorem sample_angles_after_infinite_step :
    ((Camera.init : Camera (Fp exact_rounding)).look_around_seq sample_float_math
        [(⟨Ieee.pinf⟩, ⟨Ieee.ninf⟩)]).theta = 1 ∧
    ((Camera.init : Camera (Fp exact_rounding)).look_around_seq sample_float_math
        [(⟨Ieee.pinf⟩, ⟨Ieee.ninf⟩)]).phi = 0 ∧
    ((Camera.init : Camera (Fp exact_rounding)).look_around_seq sample_float_math
        [(⟨Ieee.pinf⟩, ⟨Ieee.ninf⟩)]).look_around_speed = 1 := by
  decide

theorem sample_theta_sum :
    (((Camera.init : Camera (Fp exact_rounding)).look_around_seq sample_float_math
          [(⟨Ieee.pinf⟩, ⟨Ieee.ninf⟩)]).theta
      + ((Camera.init : Camera (Fp exact_rounding)).look_around_seq sample_float_math
          [(⟨Ieee.pinf⟩, ⟨Ieee.ninf⟩)]).look_around_speed * 200).isNaN = false := by
  rw [sample_angles_after_infinite_step.1, sample_angles_after_infinite_step.2.2]
  have h200 : (200 : Fp exact_rounding).val = Ieee.fin 200 := rfl
  simp only [Fp.isNaN, Fp.add_val, Fp.mul_val, Fp.val_one, h200]
  rw [Ieee.mul_fin_fin _ _ _ (by norm_num) (by norm_num), exact_rounding,
    Ieee.add_fin_fin _ _ _ (by norm_num)]
  rfl

theorem sample_phi_sum :
    (((Camera.init : Camera (Fp exact_rounding)).look_around_seq sample_float_math
          [(⟨Ieee.pinf⟩, ⟨Ieee.ninf⟩)]).phi
      + ((Camera.init : Camera (Fp exact_rounding)).look_around_seq sample_float_math
          [(⟨Ieee.pinf⟩, ⟨Ieee.ninf⟩)]).look_around_speed * 400).isNaN = false := by
  rw [sample_angles_after_infinite_step.2.1, sample_angles_after_infinite_step.2.2]
  have h400 : (400 : Fp exact_rounding).val = Ieee.fin 400 := rfl
  simp only [Fp.isNaN, Fp.add_val, Fp.mul_val, Fp.val_one, Fp.val_zero, h400]
  rw [Ieee.mul_fin_fin _ _ _ (by norm_num) (by norm_num), exact_rounding,
    Ieee.add_fin_fin _ _ _ (by norm_num)]
  rfl

end FloatLemmas

/-! ## The claims -/

section Claims

variable {F : Type} [LinearOrderedField F]

/-- C1: loading a well-formed imported scene into an empty model succeeds, and the file paths
of the resulting texture list are the resolved paths of the diffuse and specular slots of the
meshes reached by the traversal, each kept at its first occurrence: they are pairwise distinct,
they are the same paths as those of the slots, and there are as many textures as distinct slot
paths, however many slots refer to them. -/
theorem load_model_textures_deduplicated (E : Extern F) (w : World F) (filepath : String)
    (scene : AiScene F) (root : AiNode) (hread : E.ReadFile filepath = some scene)
    (hflag : scene.mFlags_incomplete = false) (hroot : scene.mRootNode = some root)
    (hwf : scene.WellFormed root) :
    ∃ model w1, Model.load_model E Model.empty w filepath = some (model, w1) ∧
      model.textures.map Texture.filepath
        = first_occurrences (scene.slot_paths E (E.parent_path filepath) root.mesh_refs) ∧
      (model.textures.map Texture.filepath).Nodup ∧
      (∀ p, p ∈ model.textures.map Texture.filepath
        ↔ p ∈ scene.slot_paths E (E.parent_path filepath) root.mesh_refs) ∧
      model.textures.length
        = (scene.slot_paths E (E.parent_path filepath) root.mesh_refs).toFinset.card ∧
      model.textures.length
        ≤ (scene.slot_paths E (E.parent_path filepath) root.mesh_refs).length := by
  obtain ⟨s1, hs1⟩ := process_node_meshes_isSome E scene (E.parent_path filepath) root.mesh_refs
    Model.empty (w.emit (Effect.ReadFile filepath)) hwf.1 hwf.2
  have hstep := process_node_meshes_sound E scene _ _ _ _ s1 hs1
  have hpaths : s1.1.textures.map Texture.filepath
      = first_occurrences (scene.slot_paths E (E.parent_path filepath) root.mesh_refs) := by
    rw [hstep.paths]
    exact foldl_add_path_nil _
  have hlen : s1.1.textures.length
      = (scene.slot_paths E (E.parent_path filepath) root.mesh_refs).toFinset.card := by
    rw [← length_first_occurrences, ← hpaths, List.length_map]
  refine ⟨s1.1, s1.2, ?_, hpaths, ?_, ?_, hlen, ?_⟩
  · rw [load_model_of_scene E _ w filepath scene root hread hflag hroot, hs1]
  · rw [hpaths]
    exact nodup_first_occurrences _
  · intro p
    rw [hpaths]
    exact mem_first_occurrences p _
  · rw [hlen]
    exact List.toFinset_card_le _

theorem load_model_textures_deduplicated_witness :
    sample_scene.WellFormed sample_root ∧
    ∃ model w1,
      Model.load_model sample_libs Model.empty sample_world "model/spot.obj" = some (model, w1) ∧
      model.textures.map Texture.filepath
        = first_occurrences (sample_scene.slot_paths sample_libs
            (sample_libs.parent_path "model/spot.obj") sample_root.mesh_refs) ∧
      (model.textures.map Texture.filepath).Nodup ∧
      (∀ p, p ∈ model.textures.map Texture.filepath
        ↔ p ∈ sample_scene.slot_paths sample_libs
            (sample_libs.parent_path "model/spot.obj") sample_root.mesh_refs) ∧
      model.textures.length
        = (sample_scene.slot_paths sample_libs
            (sample_libs.parent_path "model/spot.obj") sample_root.mesh_refs).toFinset.card ∧
      model.textures.length
        ≤ (sample_scene.slot_paths sample_libs
            (sample_libs.parent_path "model/spot.obj") sample_root.mesh_refs).length :=
  ⟨by decide, load_model_textures_deduplicated sample_libs sample_world "model/spot.obj"
    sample_scene sample_root rfl rfl rfl (by decide)⟩

/-- C2: after loading a well-formed imported scene into an empty model, every entry of every
mesh's `indices_of_textures` is below the length of the texture list, so `Model::draw`, which
hands each mesh the model's own texture list, never reads `textures` out of range. -/
theorem load_model_texture_indices_valid (E : Extern F) (w : World F) (filepath : String)
    (scene : AiScene F) (root : AiNode) (hread : E.ReadFile filepath = some scene)
    (hflag : scene.mFlags_incomplete = false) (hroot : scene.mRootNode = some root)
    (hwf : scene.WellFormed root) :
    ∃ model w1, Model.load_model E Model.empty w filepath = some (model, w1) ∧
      (∀ mesh ∈ model.meshes, ∀ i ∈ mesh.indices_of_textures, i < model.textures.length) ∧
      ∀ (shader : Shader) (w2 : World F), ∃ w3, model.draw shader w2 = some w3 := by
  obtain ⟨s1, hs1⟩ := process_node_meshes_isSome E scene (E.parent_path filepath) root.mesh_refs
    Model.empty (w.emit (Effect.ReadFile filepath)) hwf.1 hwf.2
  have hstep := process_node_meshes_sound E scene _ _ _ _ s1 hs1
  have hvalid := hstep.valid (by simp [Model.empty])
  refine ⟨s1.1, s1.2, ?_, hvalid, ?_⟩
  · rw [load_model_of_scene E _ w filepath scene root hread hflag hroot, hs1]
  · intro shader w2
    exact meshes_draw_isSome s1.1.meshes shader s1.1.textures w2 hvalid
theorem load_model_texture_indices_valid_witness :
    sample_scene.WellFormed sample_root ∧
    ∃ model w1,
      Model.load_model sample_libs Model.empty sample_world "model/spot.obj" = some (model, w1) ∧
      (∀ mesh ∈ model.meshes, ∀ i ∈ mesh.indices_of_textures, i < model.textures.length) ∧
      ∀ (shader : Shader) (w2 : World ℚ), ∃ w3, model.draw shader w2 = some w3 :=
  ⟨by decide, load_model_texture_indices_valid sample_libs sample_world "model/spot.obj"
    sample_scene sample_root rfl rfl rfl (by decide)⟩

/-- C3: the failing input of the claim. After construction, `move_camera(Forward, 1)` and
`reset_camera()`, the view matrix held in `camera_block` (and uploaded) is still the one of the
moved camera and differs from `camera.compute_view_matrix()`: `reset_camera` resets the camera
without recomputing or uploading the block. -/
theorem reset_camera_leaves_stale_view (E : Extern ℝ) (w : World ℝ) (width height : Int) :
    (Renderer.reset_camera (Renderer.move_camera ⟨Real.cos, Real.sin, Real.tan, Real.sqrt, Real.pi⟩
        (Renderer.init ⟨Real.cos, Real.sin, Real.tan, Real.sqrt, Real.pi⟩ E w width height).1
        (Renderer.init ⟨Real.cos, Real.sin, Real.tan, Real.sqrt, Real.pi⟩ E w width height).2
        CameraMovement.Forward 1).1).camera_block.view
    ≠ (Renderer.reset_camera (Renderer.move_camera ⟨Real.cos, Real.sin, Real.tan, Real.sqrt, Real.pi⟩
        (Renderer.init ⟨Real.cos, Real.sin, Real.tan, Real.sqrt, Real.pi⟩ E w width height).1
        (Renderer.init ⟨Real.cos, Real.sin, Real.tan, Real.sqrt, Real.pi⟩ E w width height).2
        CameraMovement.Forward 1).1).camera.compute_view_matrix
          ⟨Real.cos, Real.sin, Real.tan, Real.sqrt, Real.pi⟩ := by
  intro h
  have hz := congrArg (fun m => m.c3.z) h
  simp [Renderer.reset_camera, Renderer.move_camera, Renderer.init, Camera.reset, Camera.move,
    Camera.init, Camera.compute_view_matrix, lookAt, Vec3.normalize, Vec3.sub, Vec3.add,
    Vec3.smul, Vec3.cross, Vec3.dot] at hz

/-- C7: `move` adds `movement_speed * deltaTime` times the axis of the direction (minus or plus
`camera_right`, plus or minus the fixed world up axis `(0, 1, 0)`, plus or minus
`camera_forward`) to `camera_position` and changes no other member. -/
theorem move_translates_position (c : Camera F) (direction : CameraMovement) (deltaTime : F) :
    c.move direction deltaTime
      = { c with
          camera_position :=
            Vec3.add c.camera_position
              (Vec3.smul (c.movement_speed * deltaTime) (c.move_axis direction)) } ∧
    c.move_axis CameraMovement.Up = ⟨0, 1, 0⟩ ∧
    c.move_axis CameraMovement.Down = ⟨0, -1, 0⟩ ∧
    (c.move direction deltaTime).camera_forward = c.camera_forward ∧
    (c.move direction deltaTime).camera_right = c.camera_right ∧
    (c.move direction deltaTime).camera_up = c.camera_up ∧
    (c.move direction deltaTime).phi = c.phi ∧
    (c.move direction deltaTime).theta = c.theta ∧
    (c.move direction deltaTime).fov = c.fov ∧
    (c.move direction deltaTime).movement_speed = c.movement_speed ∧
    (c.move direction deltaTime).look_around_speed = c.look_around_speed := by
  refine ⟨?_, rfl, by simp [Camera.move_axis, Vec3.neg], ?_, ?_, ?_, ?_, ?_, ?_, ?_, ?_⟩
  · cases direction <;>
      simp [Camera.move, Camera.move_axis, Vec3.add, Vec3.sub, Vec3.smul, Vec3.neg,
        sub_eq_add_neg]
  all_goals cases direction <;> rfl

/-- C8: over the real numbers, `reset` followed by `compute_view_matrix` returns the look-at
matrix for eye `(0, 0, 0)`, target `(0, 0, -1)` and up `(0, 1, 0)`, which is the identity
matrix, whatever the camera held before. -/
theorem reset_view_matrix_identity (c : Camera ℝ) :
    c.reset.compute_view_matrix ⟨Real.cos, Real.sin, Real.tan, Real.sqrt, Real.pi⟩
      = lookAt ⟨Real.cos, Real.sin, Real.tan, Real.sqrt, Real.pi⟩ ⟨0, 0, 0⟩ ⟨0, 0, -1⟩ ⟨0, 1, 0⟩
    ∧ c.reset.compute_view_matrix ⟨Real.cos, Real.sin, Real.tan, Real.sqrt, Real.pi⟩
      = Mat4.identity := by
  constructor
  · simp [Camera.compute_view_matrix, Camera.reset, Vec3.add]
  · simp [Camera.compute_view_matrix, Camera.reset, Vec3.add, lookAt, Vec3.normalize, Vec3.sub,
      Vec3.cross, Vec3.dot, Mat4.identity]
/-- C9: in every state a renderer reaches, `set_resulution` leaves the view matrix of
`camera_block` and of the uploaded block unchanged, and `move_camera` and `look_around_camera`
leave the projection matrix of `camera_block` and of the uploaded block, the width, the height
and the render mode unchanged. -/
theorem camera_block_halves_independent (M : FloatMath F) (E : Extern F) (r : Renderer F)
    (w : World F) (h : Renderer.Reachable M E r w) (width height : Int)
    (direction : CameraMovement) (deltaTime dPhi dTheta : F) :
    ((r.set_resulution M w width height).1.camera_block.view = r.camera_block.view ∧
      ((r.set_resulution M w width height).2.uploaded
          (r.set_resulution M w width height).1.camera_UBO).map CameraBlock.view
        = (w.uploaded r.camera_UBO).map CameraBlock.view) ∧
    ((r.move_camera M w direction deltaTime).1.camera_block.projection
        = r.camera_block.projection ∧
      ((r.move_camera M w direction deltaTime).2.uploaded
          (r.move_camera M w direction deltaTime).1.camera_UBO).map CameraBlock.projection
        = (w.uploaded r.camera_UBO).map CameraBlock.projection ∧
      (r.move_camera M w direction deltaTime).1.width = r.width ∧
      (r.move_camera M w direction deltaTime).1.height = r.height ∧
      (r.move_camera M w direction deltaTime).1.render_mode = r.render_mode) ∧
    ((r.look_around_camera M w dPhi dTheta).1.camera_block.projection
        = r.camera_block.projection ∧
      ((r.look_around_camera M w dPhi dTheta).2.uploaded
          (r.look_around_camera M w dPhi dTheta).1.camera_UBO).map CameraBlock.projection
        = (w.uploaded r.camera_UBO).map CameraBlock.projection ∧
      (r.look_around_camera M w dPhi dTheta).1.width = r.width ∧
      (r.look_around_camera M w dPhi dTheta).1.height = r.height ∧
      (r.look_around_camera M w dPhi dTheta).1.render_mode = r.render_mode) := by
  have hup := (reachable_invariant M E h).1
  rw [hup]
  refine ⟨⟨rfl, ?_⟩, ⟨rfl, ?_, rfl, rfl, rfl⟩, ⟨rfl, ?_, rfl, rfl, rfl⟩⟩
  · simp [Renderer.set_resulution, Renderer.update_camera_UBO, World.uploaded, World.upload]
  · simp [Renderer.move_camera, Renderer.update_camera_UBO, World.uploaded, World.upload]
  · simp [Renderer.look_around_camera, Renderer.update_camera_UBO, World.uploaded, World.upload]

theorem camera_block_halves_independent_witness :
    Renderer.Reachable sample_math sample_libs sample_loaded.1 sample_loaded.2 ∧
    (((sample_loaded.1.set_resulution sample_math sample_loaded.2 800 600).1.camera_block.view
        = sample_loaded.1.camera_block.view ∧
      ((sample_loaded.1.set_resulution sample_math sample_loaded.2 800 600).2.uploaded
          (sample_loaded.1.set_resulution sample_math sample_loaded.2 800 600).1.camera_UBO).map
          CameraBlock.view
        = (sample_loaded.2.uploaded sample_loaded.1.camera_UBO).map CameraBlock.view) ∧
    ((sample_loaded.1.move_camera sample_math sample_loaded.2 CameraMovement.Left 2).1.camera_block.projection
        = sample_loaded.1.camera_block.projection ∧
      ((sample_loaded.1.move_camera sample_math sample_loaded.2 CameraMovement.Left 2).2.uploaded
          (sample_loaded.1.move_camera sample_math sample_loaded.2
            CameraMovement.Left 2).1.camera_UBO).map CameraBlock.projection
        = (sample_loaded.2.uploaded sample_loaded.1.camera_UBO).map CameraBlock.projection ∧
      (sample_loaded.1.move_camera sample_math sample_loaded.2 CameraMovement.Left 2).1.width
        = sample_loaded.1.width ∧
      (sample_loaded.1.move_camera sample_math sample_loaded.2 CameraMovement.Left 2).1.height
        = sample_loaded.1.height ∧
      (sample_loaded.1.move_camera sample_math sample_loaded.2 CameraMovement.Left 2).1.render_mode
        = sample_loaded.1.render_mode) ∧
    ((sample_loaded.1.look_around_camera sample_math sample_loaded.2 10 20).1.camera_block.projection
        = sample_loaded.1.camera_block.projection ∧
      ((sample_loaded.1.look_around_camera sample_math sample_loaded.2 10 20).2.uploaded
          (sample_loaded.1.look_around_camera sample_math sample_loaded.2
            10 20).1.camera_UBO).map CameraBlock.projection
        = (sample_loaded.2.uploaded sample_loaded.1.camera_UBO).map CameraBlock.projection ∧
      (sample_loaded.1.look_around_camera sample_math sample_loaded.2 10 20).1.width
        = sample_loaded.1.width ∧
      (sample_loaded.1.look_around_camera sample_math sample_loaded.2 10 20).1.height
        = sample_loaded.1.height ∧
      (sample_loaded.1.look_around_camera sample_math sample_loaded.2 10 20).1.render_mode
        = sample_loaded.1.render_mode)) :=
  ⟨sample_loaded_reachable,
   camera_block_halves_independent sample_math sample_libs sample_loaded.1 sample_loaded.2
     sample_loaded_reachable 800 600 CameraMovement.Left 2 10 20⟩

/-- C10: in every state a renderer reaches, `Renderer::load_model` behaves as loading the file
into an empty model in the world that follows the release calls of every mesh and every texture
the model held; these calls precede the importer's `ReadFile` on the trace; and a model without
meshes holds no textures, so the `if (model)` guard never skips a non-empty texture list. -/
theorem load_model_releases_previous_model (M : FloatMath F) (E : Extern F) (r : Renderer F)
    (w : World F) (h : Renderer.Reachable M E r w) (filepath : String) :
    r.load_model E w filepath
      = (Model.load_model E Model.empty
          { w with trace := w.trace ++ r.model.release_calls } filepath).map
          (fun s => ({ r with model := s.1 }, s.2)) ∧
    (∀ r1 w1, r.load_model E w filepath = some (r1, w1) →
      ∃ rest, w1.trace
        = w.trace ++ r.model.release_calls ++ Effect.ReadFile filepath :: rest) ∧
    (r.model.meshes = [] → r.model.textures = []) := by
  have hg := (reachable_invariant M E h).2
  have heq := renderer_load_model_eq E r w filepath hg
  refine ⟨heq, ?_, hg⟩
  intro r1 w1 hload
  rw [heq, Option.map_eq_some'] at hload
  obtain ⟨s, hs, hrw⟩ := hload
  simp only [Prod.mk.injEq] at hrw
  obtain ⟨rfl, rfl⟩ := hrw
  obtain ⟨scene, refs, hl⟩ := load_model_sound E _ _ _ _ hs
  obtain ⟨rest, hrest⟩ := hl.trace
  refine ⟨rest, ?_⟩
  rw [← hrest]
  simp [World.emit]
theorem load_model_releases_previous_model_witness :
    Renderer.Reachable sample_math sample_libs sample_loaded.1 sample_loaded.2 ∧
    (sample_loaded.1.load_model sample_libs sample_loaded.2 "model/spot.obj"
      = (Model.load_model sample_libs Model.empty
          { sample_loaded.2 with
            trace := sample_loaded.2.trace ++ sample_loaded.1.model.release_calls }
          "model/spot.obj").map
          (fun s => ({ sample_loaded.1 with model := s.1 }, s.2)) ∧
    (∀ r1 w1, sample_loaded.1.load_model sample_libs sample_loaded.2 "model/spot.obj"
        = some (r1, w1) →
      ∃ rest, w1.trace
        = sample_loaded.2.trace ++ sample_loaded.1.model.release_calls
            ++ Effect.ReadFile "model/spot.obj" :: rest) ∧
    (sample_loaded.1.model.meshes = [] → sample_loaded.1.model.textures = [])) :=
  ⟨sample_loaded_reachable,
   load_model_releases_previous_model sample_math sample_libs sample_loaded.1 sample_loaded.2
     sample_loaded_reachable "model/spot.obj"⟩

/-- C11: in every state a renderer reaches, when the importer reports no scene, the
incomplete-scene flag or no root node, `Renderer::load_model` returns with a model of zero
meshes and zero textures (the previous model has been destroyed and is not kept), and `render`
in any render mode then leaves the world as it is: no draw call is issued. -/
theorem failed_load_leaves_empty_model (M : FloatMath F) (E : Extern F) (r : Renderer F)
    (w : World F) (h : Renderer.Reachable M E r w) (filepath : String)
    (hfail : E.ReadFile filepath = none ∨
      ∃ scene, E.ReadFile filepath = some scene ∧
        (scene.mFlags_incomplete = true ∨ scene.mRootNode = none)) :
    ∃ r1 w1, r.load_model E w filepath = some (r1, w1) ∧
      r1.model.meshes = [] ∧ r1.model.textures = [] ∧
      ∀ mode : RenderMode, (r1.set_render_mode mode).render w1 = some w1 := by
  have hg := (reachable_invariant M E h).2
  refine ⟨{ r with model := Model.empty },
    World.emit { w with trace := w.trace ++ r.model.release_calls } (Effect.ReadFile filepath),
    ?_, rfl, rfl, ?_⟩
  · rw [renderer_load_model_eq E r w filepath hg, load_model_failed E _ _ _ hfail]
    rfl
  · intro mode
    cases mode <;> rfl

theorem failed_load_leaves_empty_model_witness :
    Renderer.Reachable sample_math sample_libs sample_loaded.1 sample_loaded.2 ∧
    (sample_libs.ReadFile "model/missing.obj" = none ∨
      ∃ scene, sample_libs.ReadFile "model/missing.obj" = some scene ∧
        (scene.mFlags_incomplete = true ∨ scene.mRootNode = none)) ∧
    ∃ r1 w1, sample_loaded.1.load_model sample_libs sample_loaded.2 "model/missing.obj"
        = some (r1, w1) ∧
      r1.model.meshes = [] ∧ r1.model.textures = [] ∧
      ∀ mode : RenderMode, (r1.set_render_mode mode).render w1 = some w1 :=
  ⟨sample_loaded_reachable, Or.inl rfl,
   failed_load_leaves_empty_model sample_math sample_libs sample_loaded.1 sample_loaded.2
     sample_loaded_reachable "model/missing.obj" (Or.inl rfl)⟩
/-- C12: on a well-formed scene `process_node` returns, and the meshes it appends are the
conversions of the mesh references of the tree in depth-first pre-order (a node's own
references in order, then the references of each child in order), one mesh per reference, so
that as many meshes are added as the tree has mesh references. -/
theorem process_node_flattens_depth_first (E : Extern F) (scene : AiScene F) (pp : String)
    (node : AiNode) (model : Model F) (w : World F) (hwf : scene.WellFormed node) :
    ∃ model1 w1 added, Model.process_node E scene pp node model w = some (model1, w1) ∧
      model1.meshes = model.meshes ++ added ∧
      List.Forall₂ scene.converts node.mesh_refs added ∧
      model1.meshes.length = model.meshes.length + node.mesh_refs.length ∧
      ∀ (mMeshes : List Nat) (mChildren : List AiNode),
        (AiNode.mk mMeshes mChildren).mesh_refs
          = mMeshes ++ mChildren.flatMap AiNode.mesh_refs := by
  obtain ⟨s1, hs1⟩ := process_node_meshes_isSome E scene pp node.mesh_refs model w hwf.1 hwf.2
  obtain ⟨added, hadded, hall⟩ := process_node_meshes_added E scene pp _ model w s1 hs1
  refine ⟨s1.1, s1.2, added, ?_, hadded, hall, ?_, ?_⟩
  · rw [process_node_flat, hs1]
  · rw [hadded, List.length_append, hall.length_eq]
  · intro mMeshes mChildren
    rw [AiNode.mesh_refs, mesh_refs_children_flatMap]

theorem process_node_flattens_depth_first_witness :
    sample_scene.WellFormed sample_root ∧
    sample_root.mesh_refs = [0, 1, 0] ∧
    ∃ model1 w1 added,
      Model.process_node sample_libs sample_scene "model" sample_root Model.empty sample_world
        = some (model1, w1) ∧
      model1.meshes = (Model.empty : Model ℚ).meshes ++ added ∧
      List.Forall₂ sample_scene.converts sample_root.mesh_refs added ∧
      model1.meshes.length
        = (Model.empty : Model ℚ).meshes.length + sample_root.mesh_refs.length ∧
      ∀ (mMeshes : List Nat) (mChildren : List AiNode),
        (AiNode.mk mMeshes mChildren).mesh_refs
          = mMeshes ++ mChildren.flatMap AiNode.mesh_refs :=
  ⟨by decide, by decide,
   process_node_flattens_depth_first sample_libs sample_scene "model" sample_root Model.empty
     sample_world (by decide)⟩
/-- C13: when every reference of the mesh is in range, `Mesh::draw` sets the four material
uniforms, then for each position `i` binds the referenced texture to texture unit `i` and
assigns unit `i` to `diffuseTextures[k]` or `specularTextures[k]`, `k` being the number of
earlier references of the same kind, then sets `hasDiffuseTextures` and `hasSpecularTextures`
to whether some referenced texture has that kind, and issues the draw call. -/
theorem mesh_draw_assigns_texture_units (m : Mesh F) (shader : Shader) (textures : List Texture)
    (w : World F) (hvalid : ∀ j ∈ m.indices_of_textures, j < textures.length) :
    m.draw shader textures w
      = some { w with
          trace := w.trace ++
            [Effect.glUniform shader.program "kd" (UniformValue.vec3 m.material.kd),
             Effect.glUniform shader.program "ks" (UniformValue.vec3 m.material.ks),
             Effect.glUniform shader.program "ka" (UniformValue.vec3 m.material.ka),
             Effect.glUniform shader.program "shininess"
               (UniformValue.float m.material.shininess)] ++
            Mesh.expected_bindings shader.program textures m.indices_of_textures ++
            [Effect.glUniform shader.program "hasDiffuseTextures"
               (UniformValue.bool (decide (∃ j ∈ m.indices_of_textures,
                 texture_kind textures j = some TextureType.DIFFUSE))),
             Effect.glUniform shader.program "hasSpecularTextures"
               (UniformValue.bool (decide (∃ j ∈ m.indices_of_textures,
                 texture_kind textures j = some TextureType.SPECULAR))),
             Effect.glDrawElements m.VAO shader.program m.indices.length] } := by
  have hloop := draw_textures_spec shader textures m.indices_of_textures []
    ((((shader.set_uniform w "kd" (UniformValue.vec3 m.material.kd)).emit
      (Effect.glUniform shader.program "ks" (UniformValue.vec3 m.material.ks))).emit
      (Effect.glUniform shader.program "ka" (UniformValue.vec3 m.material.ka))).emit
      (Effect.glUniform shader.program "shininess" (UniformValue.float m.material.shininess)))
    hvalid
  have hcount : ∀ kind, decide (count_kind textures kind m.indices_of_textures > 0)
      = decide (∃ j ∈ m.indices_of_textures, texture_kind textures j = some kind) := by
    intro kind
    apply decide_eq_decide.2
    simp [count_kind, List.countP_pos_iff]
  simp only [List.length_nil, count_kind, List.countP_nil, List.nil_append, Nat.zero_add,
    Shader.set_uniform] at hloop
  simp only [Mesh.draw, Shader.set_uniform]
  rw [hloop]
  simp only [← hcount, count_kind, Mesh.expected_bindings, World.emit, List.append_assoc,
    List.cons_append, List.nil_append, List.singleton_append]

theorem mesh_draw_assigns_texture_units_witness :
    (∀ j ∈ sample_drawn_mesh.indices_of_textures, j < sample_textures.length) ∧
    sample_drawn_mesh.draw sample_shader sample_textures sample_world
      = some { sample_world with
          trace := sample_world.trace ++
            [Effect.glUniform sample_shader.program "kd"
               (UniformValue.vec3 sample_drawn_mesh.material.kd),
             Effect.glUniform sample_shader.program "ks"
               (UniformValue.vec3 sample_drawn_mesh.material.ks),
             Effect.glUniform sample_shader.program "ka"
               (UniformValue.vec3 sample_drawn_mesh.material.ka),
             Effect.glUniform sample_shader.program "shininess"
               (UniformValue.float sample_drawn_mesh.material.shininess)] ++
            Mesh.expected_bindings sample_shader.program sample_textures
              sample_drawn_mesh.indices_of_textures ++
            [Effect.glUniform sample_shader.program "hasDiffuseTextures"
               (UniformValue.bool (decide (∃ j ∈ sample_drawn_mesh.indices_of_textures,
                 texture_kind sample_textures j = some TextureType.DIFFUSE))),
             Effect.glUniform sample_shader.program "hasSpecularTextures"
               (UniformValue.bool (decide (∃ j ∈ sample_drawn_mesh.indices_of_textures,
                 texture_kind sample_textures j = some TextureType.SPECULAR))),
             Effect.glDrawElements sample_drawn_mesh.VAO sample_shader.program
               sample_drawn_mesh.indices.length] } :=
  ⟨by decide,
   mesh_draw_assigns_texture_units sample_drawn_mesh sample_shader sample_textures sample_world
     (by decide)⟩
/-- C14: the failing input of the claim. For the renderer as constructed in any world,
`Renderer::destroy` deletes the camera uniform buffer and the objects of the position, normal,
diffuse and specular shaders, and nothing else: the two shader objects and the program of
`texCoords_shader` are never released. -/
theorem destroy_skips_texcoords_shader (M : FloatMath F) (E : Extern F) (w : World F)
    (width height : Int) :
    (Renderer.init M E w width height).1.texCoords_shader
      = ⟨w.next_name + 6, w.next_name + 7, w.next_name + 8⟩ ∧
    ((Renderer.init M E w width height).1.destroy (Renderer.init M E w width height).2).2.trace
      = (Renderer.init M E w width height).2.trace ++
        [Effect.glDeleteBuffers (w.next_name + 15),
         Effect.glDeleteShader w.next_name, Effect.glDeleteShader (w.next_name + 1),
         Effect.glDeleteProgram (w.next_name + 2),
         Effect.glDeleteShader (w.next_name + 3), Effect.glDeleteShader (w.next_name + 4),
         Effect.glDeleteProgram (w.next_name + 5),
         Effect.glDeleteShader (w.next_name + 9), Effect.glDeleteShader (w.next_name + 10),
         Effect.glDeleteProgram (w.next_name + 11),
         Effect.glDeleteShader (w.next_name + 12), Effect.glDeleteShader (w.next_name + 13),
         Effect.glDeleteProgram (w.next_name + 14)] ∧
    Effect.glDeleteShader (w.next_name + 6) ∉
      (((Renderer.init M E w width height).1.destroy
        (Renderer.init M E w width height).2).2.trace.drop
        (Renderer.init M E w width height).2.trace.length) ∧
    Effect.glDeleteShader (w.next_name + 7) ∉
      (((Renderer.init M E w width height).1.destroy
        (Renderer.init M E w width height).2).2.trace.drop
        (Renderer.init M E w width height).2.trace.length) ∧
    Effect.glDeleteProgram (w.next_name + 8) ∉
      (((Renderer.init M E w width height).1.destroy
        (Renderer.init M E w width height).2).2.trace.drop
        (Renderer.init M E w width height).2.trace.length) := by
  obtain ⟨hp, hn, ht, hd, hs, hu, hm⟩ := renderer_init_shaders M E w width height
  have htrace : ((Renderer.init M E w width height).1.destroy
        (Renderer.init M E w width height).2).2.trace
      = (Renderer.init M E w width height).2.trace ++
        [Effect.glDeleteBuffers (w.next_name + 15),
         Effect.glDeleteShader w.next_name, Effect.glDeleteShader (w.next_name + 1),
         Effect.glDeleteProgram (w.next_name + 2),
         Effect.glDeleteShader (w.next_name + 3), Effect.glDeleteShader (w.next_name + 4),
         Effect.glDeleteProgram (w.next_name + 5),
         Effect.glDeleteShader (w.next_name + 9), Effect.glDeleteShader (w.next_name + 10),
         Effect.glDeleteProgram (w.next_name + 11),
         Effect.glDeleteShader (w.next_name + 12), Effect.glDeleteShader (w.next_name + 13),
         Effect.glDeleteProgram (w.next_name + 14)] := by
    rw [renderer_destroy_trace, hp, hn, hd, hs, hu, hm]
    simp [Model.release_calls, Model.empty, Shader.release_calls]
  refine ⟨ht, htrace, ?_⟩
  rw [htrace, List.drop_left]
  simp
/-- C15: loading into an empty model a scene whose single node references one mesh of 3
vertices with the one face `(0, 1, 2)`, whose material has one diffuse and no specular texture,
yields exactly one mesh with 3 vertices, indices `[0, 1, 2]` and `indices_of_textures = [0]`,
exactly one texture, of kind `DIFFUSE`, and a model that converts to `true`. -/
theorem minimal_scene_loads (E : Extern F) (w : World F) (filepath : String)
    (scene : AiScene F) (i : Nat) (mesh : AiMesh F) (mat : AiMaterial F) (name : String)
    (hread : E.ReadFile filepath = some scene) (hflag : scene.mFlags_incomplete = false)
    (hroot : scene.mRootNode = some (AiNode.mk [i] []))
    (hmesh : scene.mMeshes[i]? = some mesh) (hverts : mesh.mNumVertices = 3)
    (hfaces : mesh.mFaces = [[0, 1, 2]])
    (hmat : scene.mMaterials[mesh.mMaterialIndex]? = some (some mat))
    (hdiff : mat.textures_diffuse = [name]) (hspec : mat.textures_specular = []) :
    ∃ model w1 m t, Model.load_model E Model.empty w filepath = some (model, w1) ∧
      model.meshes = [m] ∧ m.vertices.length = 3 ∧ m.indices = [0, 1, 2] ∧
      m.indices_of_textures = [0] ∧
      model.textures = [t] ∧ t.texture_type = TextureType.DIFFUSE ∧
      t.filepath = E.path_join (E.parent_path filepath) name ∧
      model.toBool = true := by
  have hrefs : (AiNode.mk [i] []).mesh_refs = [i] := by
    simp [AiNode.mesh_refs, AiNode.mesh_refs_children]
  rw [load_model_of_scene E _ w filepath scene _ hread hflag hroot, hrefs]
  simp only [Model.process_node_meshes, hmesh, Model.process_mesh, hmat, hdiff, hspec,
    List.foldl_cons, List.foldl_nil, Model.process_texture, Model.empty, Model.has_texture,
    Model.has_texture_from, Texture.create, Mesh.create, World.gen, hfaces]
  refine ⟨_, _, _, _, rfl, rfl, ?_, ?_, ?_, rfl, rfl, rfl, ?_⟩
  · simp [Model.process_vertices, hverts]
  · simp
  · simp [to_unsigned_int]
  · simp [Model.toBool]

theorem minimal_scene_loads_witness :
    ∃ model w1 m t,
      Model.load_model minimal_libs Model.empty sample_world "model/spot.obj"
        = some (model, w1) ∧
      model.meshes = [m] ∧ m.vertices.length = 3 ∧ m.indices = [0, 1, 2] ∧
      m.indices_of_textures = [0] ∧
      model.textures = [t] ∧ t.texture_type = TextureType.DIFFUSE ∧
      t.filepath = minimal_libs.path_join (minimal_libs.parent_path "model/spot.obj") "spot.png" ∧
      model.toBool = true :=
  minimal_scene_loads minimal_libs sample_world "model/spot.obj" minimal_scene 0 minimal_mesh
    minimal_material "spot.png" rfl rfl rfl rfl rfl rfl rfl rfl rfl
/-- C17: the failing input of the claim. A material whose diffuse slot and specular slot name
the same file yields a mesh whose two references both point to the one texture created for the
diffuse slot: two references of kind `DIFFUSE` and none of kind `SPECULAR`, although the
material has one slot of each, and `Mesh::draw` sets `hasSpecularTextures` to false. -/
theorem shared_texture_counts_as_diffuse :
    shared_material.textures_diffuse.length = 1 ∧
    shared_material.textures_specular.length = 1 ∧
    (Model.load_model shared_libs Model.empty sample_world "model/spot.obj").map
        (fun s => (s.1.textures, s.1.meshes.map Mesh.indices_of_textures))
      = some ([⟨"model/shared.png", 1, TextureType.DIFFUSE⟩], [[0, 0]]) ∧
    count_kind [⟨"model/shared.png", 1, TextureType.DIFFUSE⟩] TextureType.DIFFUSE [0, 0] = 2 ∧
    count_kind [⟨"model/shared.png", 1, TextureType.DIFFUSE⟩] TextureType.SPECULAR [0, 0] = 0 ∧
    ((Model.load_model shared_libs Model.empty sample_world "model/spot.obj").bind
        (fun s => s.1.draw sample_shader s.2)).map
        (fun w => decide (Effect.glUniform sample_shader.program "hasSpecularTextures"
          (UniformValue.bool false) ∈ w.trace))
      = some true := by
  refine ⟨rfl, rfl, by decide, by decide, by decide, by decide⟩
end Claims

end Zmv
